import Mathlib

/-!
Shallow embedding of the WSOP 2026 scheduler's parsing subsystem:
the rake/fee engine, the game-variant classifier, the fixed-columnar
WSOP schedule parser and the generic row-based schedule parser.
Strings are modelled as lists of characters; JavaScript numbers are
modelled as integers (amounts) and rationals (percentages), with
Math.round(x) embedded as the floor of x + 1/2.
-/

namespace Wsop

/-- JavaScript Math.round: floor of x + 1/2 (halves round toward +infinity). -/
def jsRound (q : ℚ) : ℤ := ⌊q + 1/2⌋

/-- A rake tier: entry-fee, dealer/staff and total percentages. -/
structure TierPct where
  entryFeePct : ℚ
  dealerStaffPct : ℚ
  totalPct : ℚ
  deriving DecidableEq, Repr

/-- Result of getWSOPRake: each field is null (none) or a number. -/
structure RakeResult where
  rakePct : Option ℚ
  rakeDollars : Option ℤ
  prizePool : Option ℤ
  houseFee : Option ℤ
  optAddOn : Option ℤ
  deriving DecidableEq, Repr

/-- The WSOP 2026 rake table keyed by buy-in tier (ascending key order,
matching JavaScript integer-key enumeration order). -/
def WSOP_RAKE_BY_BUYIN : List (ℤ × TierPct) :=
  [ (300,    ⟨12.6, 5.4, 18.0⟩),
    (400,    ⟨12.25, 5.25, 17.5⟩),
    (500,    ⟨11.9, 5.1, 17.0⟩),
    (550,    ⟨11.9, 5.1, 17.0⟩),
    (600,    ⟨11.2, 4.8, 16.0⟩),
    (800,    ⟨8.75, 3.75, 12.5⟩),
    (1000,   ⟨8.4, 3.6, 12.0⟩),
    (1500,   ⟨8.05, 3.45, 11.5⟩),
    (1700,   ⟨8.05, 3.45, 11.5⟩),
    (2000,   ⟨7.7, 3.3, 11.0⟩),
    (2500,   ⟨7.7, 3.3, 11.0⟩),
    (3000,   ⟨7.7, 3.3, 11.0⟩),
    (5000,   ⟨5.6, 2.4, 8.0⟩),
    (10000,  ⟨4.9, 2.1, 7.0⟩),
    (25000,  ⟨4.2, 1.8, 6.0⟩),
    (50000,  ⟨3.5, 1.5, 5.0⟩),
    (100000, ⟨2.8, 1.2, 4.0⟩),
    (250000, ⟨1.4, 0.6, 2.0⟩) ]

/-- Special-case events with non-standard rake (event 59, charity, reduced rake). -/
def WSOP_RAKE_OVERRIDES : List (String × TierPct) :=
  [ ("59", ⟨7.0, 3.0, 10.0⟩) ]

/-- The field computation shared by the three branches of getWSOPRake
(the source repeats the same four formulas verbatim in each branch). -/
def tierFields (t : TierPct) (buyin : ℤ) : RakeResult :=
  let rakeDollars := jsRound (buyin * t.totalPct / 100)
  let houseFee := jsRound (buyin * t.entryFeePct / 100)
  let dealerStaff := jsRound (buyin * t.dealerStaffPct / 100)
  { rakePct := some t.totalPct,
    rakeDollars := some rakeDollars,
    prizePool := some (buyin - rakeDollars),
    houseFee := some houseFee,
    optAddOn := some dealerStaff }

/-- The all-null return value of getWSOPRake. -/
def nullRake : RakeResult := ⟨none, none, none, none, none⟩

/-- Loop of the fallback tier search: walk the ascending tier keys,
remembering the last key at most the buy-in, stopping at the first larger key. -/
def bestTierLoop (buyin : ℤ) : Option ℤ → List ℤ → Option ℤ
  | acc, [] => acc
  | acc, t :: rest => if t ≤ buyin then bestTierLoop buyin (some t) rest else acc

/-- The tier keys in ascending order (the source sorts Object.keys numerically). -/
def sortedTiers : List ℤ := (WSOP_RAKE_BY_BUYIN.map Prod.fst).insertionSort (· ≤ ·)

/-- Fallback tier key: the highest key at most the buy-in, or the lowest
key when the buy-in is below all keys (none only for an empty table). -/
def fallbackTierKey (buyin : ℤ) : Option ℤ :=
  match bestTierLoop buyin none sortedTiers with
  | none => sortedTiers.head?
  | some t => some t

/-- Look up rake for a WSOP event by buy-in amount and event number:
override table first (for a truthy, i.e. nonempty, event number), then
exact buy-in match, then the highest tier key at most the buy-in
(lowest tier if the buy-in is below all keys). -/
def getWSOPRake (buyin : ℤ) (eventNumber : String) : RakeResult :=
  match (if eventNumber ≠ "" then
          (WSOP_RAKE_OVERRIDES.find? (fun p => p.1 == eventNumber)).map Prod.snd
         else none) with
  | some ov => tierFields ov buyin
  | none =>
    match (WSOP_RAKE_BY_BUYIN.find? (fun p => p.1 == buyin)).map Prod.snd with
    | some tier => tierFields tier buyin
    | none =>
      match fallbackTierKey buyin with
      | some bt =>
        match (WSOP_RAKE_BY_BUYIN.find? (fun p => p.1 == bt)).map Prod.snd with
        | some tier => tierFields tier buyin
        | none => nullRake
      | none => nullRake

/-- All tier records the engine can ever resolve. -/
def allTierPcts : List TierPct :=
  WSOP_RAKE_OVERRIDES.map Prod.snd ++ WSOP_RAKE_BY_BUYIN.map Prod.snd

end Wsop

namespace Wsop

/-- Independent rounding of two summands differs from rounding the sum by at most 1. -/
theorem jsRound_add_sub_abs_le (a b : ℚ) :
    |jsRound a + jsRound b - jsRound (a + b)| ≤ 1 := by
  unfold jsRound
  have h1 : (⌊a + 1/2⌋ : ℚ) ≤ a + 1/2 := Int.floor_le _
  have h2 : a + 1/2 < ⌊a + 1/2⌋ + 1 := Int.lt_floor_add_one _
  have h3 : (⌊b + 1/2⌋ : ℚ) ≤ b + 1/2 := Int.floor_le _
  have h4 : b + 1/2 < ⌊b + 1/2⌋ + 1 := Int.lt_floor_add_one _
  have h5 : (⌊a + b + 1/2⌋ : ℚ) ≤ a + b + 1/2 := Int.floor_le _
  have h6 : a + b + 1/2 < ⌊a + b + 1/2⌋ + 1 := Int.lt_floor_add_one _
  rw [abs_le]
  have hlo : ((-2 : ℤ) : ℚ) < ((⌊a + 1/2⌋ + ⌊b + 1/2⌋ - ⌊a + b + 1/2⌋ : ℤ) : ℚ) := by
    push_cast; linarith
  have hhi : ((⌊a + 1/2⌋ + ⌊b + 1/2⌋ - ⌊a + b + 1/2⌋ : ℤ) : ℚ) < ((2 : ℤ) : ℚ) := by
    push_cast; linarith
  have hlo2 : (-2 : ℤ) < ⌊a + 1/2⌋ + ⌊b + 1/2⌋ - ⌊a + b + 1/2⌋ := by exact_mod_cast hlo
  have hhi2 : ⌊a + 1/2⌋ + ⌊b + 1/2⌋ - ⌊a + b + 1/2⌋ < (2 : ℤ) := by exact_mod_cast hhi
  omega

/-- In every tier of the table (and of the override table), the two
sub-fee percentages sum exactly to the total percentage. -/
theorem tier_sum_ok : ∀ t ∈ allTierPcts, t.entryFeePct + t.dealerStaffPct = t.totalPct := by
  intro t ht
  fin_cases ht <;> norm_num

/-- getWSOPRake either returns the all-null record or the fields of a tier
drawn from the override table or the buy-in table. -/
theorem getWSOPRake_cases (b : ℤ) (e : String) :
    getWSOPRake b e = nullRake ∨
      ∃ t, t ∈ allTierPcts ∧ getWSOPRake b e = tierFields t b := by
  unfold getWSOPRake
  split
  · rename_i ov hov
    right
    refine ⟨ov, ?_, rfl⟩
    unfold allTierPcts
    split at hov
    · rw [Option.map_eq_some'] at hov
      obtain ⟨p, hp, hps⟩ := hov
      subst hps
      exact List.mem_append_left _ (List.mem_map_of_mem _ (List.mem_of_find?_eq_some hp))
    · exact absurd hov (by simp)
  · split
    · rename_i tier htier
      right
      refine ⟨tier, ?_, rfl⟩
      rw [Option.map_eq_some'] at htier
      obtain ⟨p, hp, hps⟩ := htier
      subst hps
      exact List.mem_append_right _ (List.mem_map_of_mem _ (List.mem_of_find?_eq_some hp))
    · split
      · split
        · rename_i tier htier
          right
          refine ⟨tier, ?_, rfl⟩
          rw [Option.map_eq_some'] at htier
          obtain ⟨p, hp, hps⟩ := htier
          subst hps
          exact List.mem_append_right _ (List.mem_map_of_mem _ (List.mem_of_find?_eq_some hp))
        · left; rfl
      · left; rfl

/-- Claim C1: whenever getWSOPRake resolves a tier (override, exact or
fallback, i.e. the fields are non-null), the prize pool and rake dollars
sum exactly to the buy-in, and the two independently rounded sub-fees
(house fee and optional add-on) sum to the rake dollars within plus or
minus 1. -/
theorem rake_fields_invariant (buyin : ℤ) (eventNumber : String)
    (pp rd hf ao : ℤ)
    (hpp : (getWSOPRake buyin eventNumber).prizePool = some pp)
    (hrd : (getWSOPRake buyin eventNumber).rakeDollars = some rd)
    (hhf : (getWSOPRake buyin eventNumber).houseFee = some hf)
    (hao : (getWSOPRake buyin eventNumber).optAddOn = some ao) :
    pp + rd = buyin ∧ |hf + ao - rd| ≤ 1 := by
  rcases getWSOPRake_cases buyin eventNumber with h | ⟨t, ht, h⟩
  · rw [h] at hpp
    simp [nullRake] at hpp
  · rw [h] at hpp hrd hhf hao
    simp only [tierFields, Option.some.injEq] at hpp hrd hhf hao
    subst hpp hrd hhf hao
    constructor
    · ring
    · have hsum := tier_sum_ok t ht
      have key : buyin * t.entryFeePct / 100 + buyin * t.dealerStaffPct / 100
          = buyin * t.totalPct / 100 := by
        rw [← hsum]; ring
      rw [← key]
      exact jsRound_add_sub_abs_le _ _

/-- Witness for C1 at buy-in 500 with no override (tier 17 percent:
prize pool 415, rake 85, house fee 60, add-on 26). -/
theorem rake_fields_invariant_witness :
    415 + 85 = (500 : ℤ) ∧ |60 + 26 - (85 : ℤ)| ≤ 1 :=
  rake_fields_invariant 500 "" 415 85 60 26
    (by norm_num [getWSOPRake, WSOP_RAKE_BY_BUYIN, WSOP_RAKE_OVERRIDES, tierFields, jsRound])
    (by norm_num [getWSOPRake, WSOP_RAKE_BY_BUYIN, WSOP_RAKE_OVERRIDES, tierFields, jsRound])
    (by norm_num [getWSOPRake, WSOP_RAKE_BY_BUYIN, WSOP_RAKE_OVERRIDES, tierFields, jsRound])
    (by norm_num [getWSOPRake, WSOP_RAKE_BY_BUYIN, WSOP_RAKE_OVERRIDES, tierFields, jsRound])

end Wsop

namespace Wsop

/-- The sorted tier key list, concretely. -/
theorem sortedTiers_eq : sortedTiers =
    [300, 400, 500, 550, 600, 800, 1000, 1500, 1700, 2000,
     2500, 3000, 5000, 10000, 25000, 50000, 100000, 250000] := by
  rfl

/-- The loop result is at most the buy-in, provided the accumulator is. -/
theorem bestTierLoop_le (b : ℤ) :
    ∀ (l : List ℤ) (acc : Option ℤ), (∀ a, acc = some a → a ≤ b) →
      ∀ r, bestTierLoop b acc l = some r → r ≤ b := by
  intro l
  induction l with
  | nil => intro acc hacc r h; exact hacc r h
  | cons t rest ih =>
    intro acc hacc r h
    simp only [bestTierLoop] at h
    split at h
    · exact ih (some t) (by intro a ha; injection ha with ha; omega) r h
    · exact hacc r h

/-- The loop result comes from the list or from the accumulator. -/
theorem bestTierLoop_mem (b : ℤ) :
    ∀ (l : List ℤ) (acc : Option ℤ) (r : ℤ),
      bestTierLoop b acc l = some r → r ∈ l ∨ acc = some r := by
  intro l
  induction l with
  | nil => intro acc r h; exact Or.inr h
  | cons t rest ih =>
    intro acc r h
    simp only [bestTierLoop] at h
    split at h
    · rcases ih (some t) r h with hm | hm
      · exact Or.inl (List.mem_cons_of_mem _ hm)
      · injection hm with hm; subst hm; exact Or.inl (List.mem_cons_self _ _)
    · exact Or.inr h

/-- Once the accumulator is set, the loop never returns none. -/
theorem bestTierLoop_isSome (b : ℤ) :
    ∀ (l : List ℤ) (a : ℤ), ∃ r, bestTierLoop b (some a) l = some r := by
  intro l
  induction l with
  | nil => intro a; exact ⟨a, rfl⟩
  | cons t rest ih =>
    intro a
    simp only [bestTierLoop]
    split
    · exact ih t
    · exact ⟨a, rfl⟩

/-- On a sorted list, every list element at most the buy-in is at most
the loop result. -/
theorem bestTierLoop_max (b : ℤ) :
    ∀ (l : List ℤ) (acc : Option ℤ) (r : ℤ), l.Sorted (· ≤ ·) →
      bestTierLoop b acc l = some r → ∀ k ∈ l, k ≤ b → k ≤ r := by
  intro l
  induction l with
  | nil => intro acc r _ _ k hk; exact absurd hk (List.not_mem_nil _)
  | cons t rest ih =>
    intro acc r hs h k hk hkb
    rw [List.sorted_cons] at hs
    simp only [bestTierLoop] at h
    split at h
    · rcases List.mem_cons.mp hk with hk | hk
      · subst hk
        rcases bestTierLoop_mem b rest (some k) r h with hm | hm
        · exact hs.1 r hm
        · injection hm with hm; omega
      · exact ih (some t) r hs.2 h k hk hkb
    · rename_i htb
      rcases List.mem_cons.mp hk with hk | hk
      · omega
      · have := hs.1 k hk; omega

/-- On a sorted list, a none result starting from none means the buy-in
is below every list element. -/
theorem bestTierLoop_none (b : ℤ) (l : List ℤ) (hs : l.Sorted (· ≤ ·))
    (h : bestTierLoop b none l = none) : ∀ k ∈ l, b < k := by
  cases l with
  | nil => intro k hk; exact absurd hk (List.not_mem_nil _)
  | cons t rest =>
    rw [List.sorted_cons] at hs
    simp only [bestTierLoop] at h
    split at h
    · obtain ⟨r, hr⟩ := bestTierLoop_isSome b rest t
      rw [hr] at h; exact absurd h (by simp)
    · rename_i htb
      intro k hk
      rcases List.mem_cons.mp hk with hk | hk
      · omega
      · have := hs.1 k hk; omega

/-- The concrete tier key list is sorted. -/
theorem sortedTiers_sorted : sortedTiers.Sorted (· ≤ ·) := by
  rw [sortedTiers_eq]
  decide

/-- The fallback tier key is the highest tier key at most the buy-in,
or the lowest key (300) when the buy-in is below all keys. -/
theorem fallbackTierKey_spec (b bt : ℤ) (h : fallbackTierKey b = some bt) :
    bt ∈ sortedTiers ∧
      ((bt ≤ b ∧ ∀ k ∈ sortedTiers, k ≤ b → k ≤ bt) ∨ (b < 300 ∧ bt = 300)) := by
  unfold fallbackTierKey at h
  cases hbl : bestTierLoop b none sortedTiers with
  | none =>
    rw [hbl] at h
    have hall := bestTierLoop_none b sortedTiers sortedTiers_sorted hbl
    rw [sortedTiers_eq] at h hall ⊢
    simp only [List.head?] at h
    injection h with h
    subst h
    refine ⟨by decide, Or.inr ⟨?_, rfl⟩⟩
    exact hall 300 (by decide)
  | some r =>
    rw [hbl] at h
    injection h with h
    subst h
    have hle := bestTierLoop_le b sortedTiers none (by intro a ha; cases ha) r hbl
    have hmax := bestTierLoop_max b sortedTiers none r sortedTiers_sorted hbl
    have hmem := bestTierLoop_mem b sortedTiers none r hbl
    rcases hmem with hmem | hmem
    · exact ⟨hmem, Or.inl ⟨hle, hmax⟩⟩
    · exact absurd hmem (by simp)

end Wsop

namespace Wsop

/-- Claim C4: tier resolution order of getWSOPRake. (1) an event-number
override is checked first and wins even when an exact buy-in tier exists;
(2) with no applicable override, an exact buy-in match is used; (3) with
no exact match, the tier of the fallback key (the highest key at most the
buy-in, or the lowest key 300 when the buy-in is below all keys, per
fallbackTierKey_spec) is used. Concretely: buy-in 500 with event number
"59" yields rake 50 and prize pool 450 from the override; buy-in 500 with
no override yields rake 85 and prize pool 415; buy-in 275 yields the
300-tier percentages applied to 275. -/
theorem rake_resolution_order :
    (∀ b : ℤ, getWSOPRake b "59" = tierFields ⟨7.0, 3.0, 10.0⟩ b) ∧
    (∀ (b : ℤ) (e : String) (t : TierPct), e ≠ "59" →
      (WSOP_RAKE_BY_BUYIN.find? (fun p => p.1 == b)).map Prod.snd = some t →
      getWSOPRake b e = tierFields t b) ∧
    (∀ (b bt : ℤ) (e : String) (t : TierPct), e ≠ "59" →
      (WSOP_RAKE_BY_BUYIN.find? (fun p => p.1 == b)).map Prod.snd = none →
      fallbackTierKey b = some bt →
      (WSOP_RAKE_BY_BUYIN.find? (fun p => p.1 == bt)).map Prod.snd = some t →
      getWSOPRake b e = tierFields t b) ∧
    (getWSOPRake 500 "59").rakeDollars = some 50 ∧
    (getWSOPRake 500 "59").prizePool = some 450 ∧
    (getWSOPRake 500 "").rakeDollars = some 85 ∧
    (getWSOPRake 500 "").prizePool = some 415 ∧
    getWSOPRake 275 "" = tierFields ⟨12.6, 5.4, 18.0⟩ 275 := by
  have hov : ∀ e : String, e ≠ "59" →
      (if e ≠ "" then
        (WSOP_RAKE_OVERRIDES.find? (fun p => p.1 == e)).map Prod.snd
       else none) = none := by
    intro e he
    have hbe : ("59" == e) = false := beq_eq_false_iff_ne.mpr (Ne.symm he)
    split
    · simp [WSOP_RAKE_OVERRIDES, List.find?, hbe]
    · rfl
  refine ⟨?_, ?_, ?_, ?_, ?_, ?_, ?_, ?_⟩
  · intro b; rfl
  · intro b e t he hfind
    unfold getWSOPRake
    simp only [hov e he, hfind]
  · intro b bt e t he hb hbt ht
    unfold getWSOPRake
    simp only [hov e he, hb, hbt, ht]
  · show (tierFields ⟨7.0, 3.0, 10.0⟩ 500).rakeDollars = some 50
    norm_num [tierFields, jsRound]
  · show (tierFields ⟨7.0, 3.0, 10.0⟩ 500).prizePool = some 450
    norm_num [tierFields, jsRound]
  · norm_num [getWSOPRake, WSOP_RAKE_BY_BUYIN, WSOP_RAKE_OVERRIDES, tierFields, jsRound]
  · norm_num [getWSOPRake, WSOP_RAKE_BY_BUYIN, WSOP_RAKE_OVERRIDES, tierFields, jsRound]
  · rfl

/-- Witness for C4's hypothesis-bearing clause: the exact-match clause
applied at buy-in 500 with the empty event number. -/
theorem rake_resolution_order_witness :
    getWSOPRake 500 "" = tierFields ⟨11.9, 5.1, 17.0⟩ 500 :=
  rake_resolution_order.2.1 500 "" ⟨11.9, 5.1, 17.0⟩ (by decide) (by rfl)

end Wsop

namespace Wsop

/-- Character lists model JavaScript strings. -/
abbrev Chars := List Char

/-- JavaScript regex word character: letter, digit or underscore. -/
def isWordChar (c : Char) : Bool := c.isAlpha || c.isDigit || c == '_'

/-- JavaScript regex whitespace character (the ASCII portion). -/
def jsWS (c : Char) : Bool :=
  c == ' ' || c == '\t' || c == '\n' || c == '\r' || c == '\x0b' || c == '\x0c'

/-- Lower-case a string (toLowerCase; inputs are ASCII). -/
def lowerChars (s : Chars) : Chars := s.map Char.toLower

/-- Upper-case a string (toUpperCase; inputs are ASCII). -/
def upperChars (s : Chars) : Chars := s.map Char.toUpper

/-- String.prototype.includes: some rotation of s starts with sub. -/
def containsSub (s sub : Chars) : Bool :=
  (List.range (s.length + 1)).any (fun i => sub.isPrefixOf (s.drop i))

/-- Word boundary immediately before position i of s. -/
def bdryBefore (s : Chars) (i : ℕ) : Bool :=
  match i with
  | 0 => true
  | j + 1 =>
    match s.drop j with
    | c :: _ => !isWordChar c
    | [] => true

/-- Word boundary between a word character and the given rest of the string. -/
def bdryHead : Chars → Bool
  | [] => true
  | c :: _ => !isWordChar c

/-- Consume an optional dot followed by the expected character. -/
def afterOpt (c : Char) : Chars → Option Chars
  | x :: r =>
    if x == c then some r
    else if x == '.' then
      match r with
      | y :: r2 => if y == c then some r2 else none
      | [] => none
    else none
  | [] => none

/-- Match of t.?o.?r.?s.?e.? with word boundaries at position i. -/
def torseAt (s : Chars) (i : ℕ) : Bool :=
  match s.drop i with
  | 't' :: r =>
    bdryBefore s i &&
      (match ((((afterOpt 'o' r).bind (afterOpt 'r')).bind (afterOpt 's')).bind
          (afterOpt 'e')) with
       | some r5 => bdryHead r5
       | none => false)
  | _ => false

/-- Test of the T.O.R.S.E. regex anywhere in the string. -/
def reTorse (s : Chars) : Bool := (List.range (s.length + 1)).any (torseAt s)

/-- Match of the word plo with boundaries at position i. -/
def ploAt (s : Chars) (i : ℕ) : Bool :=
  match s.drop i with
  | 'p' :: 'l' :: 'o' :: r => bdryBefore s i && bdryHead r
  | _ => false

/-- Test of the plo word regex anywhere in the string. -/
def rePlo (s : Chars) : Bool := (List.range (s.length + 1)).any (ploAt s)

/-- Match of plo, optional whitespace, 8, with boundaries, at position i. -/
def plo8At (s : Chars) (i : ℕ) : Bool :=
  match s.drop i with
  | 'p' :: 'l' :: 'o' :: r =>
    bdryBefore s i &&
      (match r.dropWhile jsWS with
       | '8' :: r2 => bdryHead r2
       | _ => false)
  | _ => false

/-- Test of the plo8 regex anywhere in the string. -/
def rePlo8 (s : Chars) : Bool := (List.range (s.length + 1)).any (plo8At s)

/-- Match of big, optional hyphen or space, o, with boundaries, at position i. -/
def bigOAt (s : Chars) (i : ℕ) : Bool :=
  match s.drop i with
  | 'b' :: 'i' :: 'g' :: 'o' :: r => bdryBefore s i && bdryHead r
  | 'b' :: 'i' :: 'g' :: c :: 'o' :: r =>
    bdryBefore s i && (c == '-' || c == ' ') && bdryHead r
  | _ => false

/-- Test of the big-o regex anywhere in the string. -/
def reBigO (s : Chars) : Bool := (List.range (s.length + 1)).any (bigOAt s)

/-- Anchored test: the string starts with mixed followed by a colon or whitespace. -/
def mixedStart (s : Chars) : Bool :=
  match s with
  | 'm' :: 'i' :: 'x' :: 'e' :: 'd' :: c :: _ => c == ':' || jsWS c
  | _ => false

/-- Match of mixed game with a word boundary before it, at position i. -/
def mixedGameAt (s : Chars) (i : ℕ) : Bool :=
  "mixed game".data.isPrefixOf (s.drop i) && bdryBefore s i

/-- Test of the mixed-game regex anywhere in the string. -/
def reMixedGame (s : Chars) : Bool := (List.range (s.length + 1)).any (mixedGameAt s)

/-- JavaScript String.prototype.indexOf for a single character. -/
def jsIndexOf (c : Char) : Chars → Option ℕ
  | [] => none
  | x :: rest => if x == c then some 0 else (jsIndexOf c rest).map (· + 1)

end Wsop

namespace Wsop

/-- The main event name: the part before the first semicolon, but only
when that semicolon is at a position strictly greater than 0. -/
def mainPart (s : Chars) : Chars :=
  match jsIndexOf ';' s with
  | some k => if 0 < k then s.take k else s
  | none => s

/-- The ordered classification chain applied to the main event name. -/
def classifyMain (main : Chars) : String :=
  let lower := lowerChars main
  if containsSub lower "dealers choice".data then "Dealers Choice"
  else if containsSub lower "8-game".data || containsSub lower "8 game mix".data
      || containsSub lower "nine game".data then "Mixed Games"
  else if containsSub lower "h.o.r.s.e".data then "H.O.R.S.E."
  else if reTorse lower || containsSub lower "torse".data then "T.O.R.S.E."
  else if containsSub lower "mixed plo".data then "PLO"
  else if mixedStart lower || reMixedGame lower then "Mixed Games"
  else if containsSub lower "pot-limit omaha hi-lo".data
      || containsSub lower "plo hi-lo".data then "PLO Hi-Lo"
  else if rePlo8 lower || containsSub lower "plo hi/lo".data then "PLO Hi-Lo"
  else if containsSub lower "5 card plo".data
      || containsSub lower "5-card plo".data then "5-Card PLO"
  else if containsSub lower "pot-limit omaha".data || rePlo lower then "PLO"
  else if reBigO lower then "Big O"
  else if containsSub lower "omaha hi-lo".data then "Omaha Hi-Lo"
  else if containsSub lower "2-7".data && containsSub lower "triple draw".data then
    "2-7 Triple Draw"
  else if containsSub lower "2-7".data && containsSub lower "lowball".data then
    "2-7 Lowball"
  else if containsSub lower "stud hi-lo".data then "Stud Hi-Lo"
  else if containsSub lower "seven card stud".data then "7-Card Stud"
  else if containsSub lower "razz".data then "Razz"
  else if containsSub lower "badugi".data then "Badugi"
  else if containsSub lower "limit hold".data
      && !containsSub lower "no-limit".data then "Limit Holdem"
  else "NLHE"

/-- classifyGameVariant on character lists. -/
def classifyChars (s : Chars) : String := classifyMain (mainPart s)

/-- Pure classifier from an event-name string to a canonical variant label. -/
def classifyGameVariant (s : String) : String := classifyChars s.data

/-- The fixed set of labels the classifier can return. -/
def canonicalLabels : List String :=
  [ "Dealers Choice", "Mixed Games", "H.O.R.S.E.", "T.O.R.S.E.", "PLO",
    "PLO Hi-Lo", "5-Card PLO", "Big O", "Omaha Hi-Lo", "2-7 Triple Draw",
    "2-7 Lowball", "Stud Hi-Lo", "7-Card Stud", "Razz", "Badugi",
    "Limit Holdem", "NLHE" ]

end Wsop

namespace Wsop

/-- No occurrence of the character strictly before its first index. -/
theorem jsIndexOf_take_none (c : Char) :
    ∀ (s : Chars) (k : ℕ), jsIndexOf c s = some k → jsIndexOf c (s.take k) = none := by
  intro s
  induction s with
  | nil => intro k h; cases h
  | cons x rest ih =>
    intro k h
    simp only [jsIndexOf] at h
    split at h
    · injection h with h
      subst h
      rfl
    · rw [Option.map_eq_some'] at h
      obtain ⟨k1, hk1, hk⟩ := h
      subst hk
      simp only [List.take_succ_cons, jsIndexOf]
      split
      · rename_i hxc; exact absurd hxc (by simp_all)
      · rw [ih k1 hk1]; rfl

/-- mainPart takes the prefix when the first semicolon is at a positive index. -/
theorem mainPart_eq_take (s : Chars) (k : ℕ)
    (h : jsIndexOf ';' s = some k) (hk : 0 < k) : mainPart s = s.take k := by
  unfold mainPart
  rw [h]
  simp [hk]

/-- mainPart is the identity on a semicolon-free string. -/
theorem mainPart_of_none (s : Chars) (h : jsIndexOf ';' s = none) : mainPart s = s := by
  unfold mainPart
  rw [h]

/-- Claim C8 (amended): when the first semicolon of the event name sits at a
position strictly greater than 0, classification equals classification of
the prefix strictly before that semicolon; a name beginning with a
semicolon is classified from the whole string instead. -/
theorem classify_prefix_before_semicolon (s : String) (k : ℕ)
    (h : jsIndexOf ';' s.data = some k) (hk : 0 < k) :
    classifyGameVariant s = classifyChars (s.data.take k) := by
  unfold classifyGameVariant classifyChars
  rw [mainPart_eq_take s.data k h hk,
      mainPart_of_none (s.data.take k) (jsIndexOf_take_none ';' s.data k h)]

/-- Witness for C8: the name with its first semicolon at index 3. -/
theorem classify_prefix_before_semicolon_witness :
    classifyGameVariant "PLO; Razz" = classifyChars ("PLO; Razz".data.take 3) :=
  classify_prefix_before_semicolon "PLO; Razz" 3 (by decide) (by decide)

/-- Counterexample to C8 as stated: the name begins with a semicolon, so the
code classifies the whole string (PLO) rather than the empty prefix (NLHE). -/
theorem classify_semicolon_cex :
    jsIndexOf ';' ";PLO".data = some 0 ∧
      classifyGameVariant ";PLO" ≠ classifyGameVariant "" := by
  decide

/-- Claim C3 (amended): the classifier is idempotent on every canonical label
except 7-Card Stud, which it maps to NLHE (no test matches the literal
label text 7-Card Stud, only the spelled-out seven card stud). -/
theorem classify_idempotent_except_stud :
    (∀ L ∈ canonicalLabels, L ≠ "7-Card Stud" → classifyGameVariant L = L) ∧
      classifyGameVariant "7-Card Stud" = "NLHE" := by
  decide

/-- Witness for C3: idempotence at the PLO label. -/
theorem classify_idempotent_except_stud_witness :
    classifyGameVariant "PLO" = "PLO" :=
  classify_idempotent_except_stud.1 "PLO" (by decide) (by decide)

/-- Counterexample to C3 as stated: 7-Card Stud is a canonical label but is
not a fixed point of the classifier. -/
theorem classify_stud_cex :
    "7-Card Stud" ∈ canonicalLabels ∧
      classifyGameVariant "7-Card Stud" ≠ "7-Card Stud" := by
  decide

end Wsop

namespace Wsop

/-- JavaScript String.prototype.trim. -/
def jsTrim (s : Chars) : Chars :=
  ((s.dropWhile jsWS).reverse.dropWhile jsWS).reverse

/-- Join string pieces with a single space (Array.prototype.join with ' '). -/
def joinSpace (xs : List Chars) : Chars := List.intercalate [' '] xs

/-- Decimal digits to a natural number. -/
def digitsToNat (s : Chars) : ℕ :=
  s.foldl (fun acc c => acc * 10 + (c.toNat - '0'.toNat)) 0

/-- A JavaScript number produced by parseInt: NaN or a natural. -/
inductive JsNum where
  | nan : JsNum
  | num : ℕ → JsNum
  deriving DecidableEq, Repr

/-- parseInt on a digits-only string (empty input yields NaN). -/
def parseIntJS (digits : Chars) : JsNum :=
  if digits.isEmpty then JsNum.nan else JsNum.num (digitsToNat digits)

/-- Leftmost match of a dollar sign followed by digits/commas; returns the
captured digits-and-commas run. -/
def dollarCapture : Chars → Option Chars
  | [] => none
  | '$' :: rest =>
    let run := rest.takeWhile (fun c => c.isDigit || c == ',')
    if run.isEmpty then dollarCapture rest else some run
  | _ :: rest => dollarCapture rest

/-- Entirely digits, nonempty. -/
def isDigitRun (s : Chars) : Bool := !s.isEmpty && s.all (·.isDigit)

/-- A page-number line: digits, slash, digits. -/
def reSlashPage (s : Chars) : Bool :=
  match s.span (·.isDigit) with
  | (ds, '/' :: rest) => !ds.isEmpty && isDigitRun rest
  | _ => false

/-- A date line: May, June or July, whitespace, day digits (anchored). -/
def reDateLine (s : Chars) : Bool :=
  let l := lowerChars s
  let afterMon : Option Chars :=
    if "may".data.isPrefixOf l then some (l.drop 3)
    else if "june".data.isPrefixOf l then some (l.drop 4)
    else if "july".data.isPrefixOf l then some (l.drop 4)
    else none
  match afterMon with
  | some r =>
    let r2 := r.dropWhile jsWS
    decide (r2.length < r.length) && isDigitRun r2
  | none => false

/-- A time line: one or two digits, optional colon minutes, optional
whitespace, AM or PM (anchored, case-insensitive). -/
def reTimeLine (s : Chars) : Bool :=
  let l := lowerChars s
  let ds := l.takeWhile (·.isDigit)
  let rest := l.dropWhile (·.isDigit)
  let finAmPm : Chars → Bool := fun r =>
    let r2 := r.dropWhile jsWS
    r2 == "am".data || r2 == "pm".data
  (ds.length == 1 || ds.length == 2) &&
    (match rest with
     | ':' :: a :: b :: r => a.isDigit && b.isDigit && finAmPm r
     | _ => finAmPm rest)

/-- Normalize a time: strip all whitespace and upper-case. -/
def normTime (s : Chars) : Chars := upperChars (s.filter (fun c => !jsWS c))

/-- A re-entry count with flight qualifier: digits, slash, flight. -/
def reFlight (s : Chars) : Bool :=
  let l := lowerChars s
  let ds := l.takeWhile (·.isDigit)
  let rest := l.dropWhile (·.isDigit)
  !ds.isEmpty &&
    (match rest.dropWhile jsWS with
     | '/' :: r2 => "flight".data.isPrefixOf (r2.dropWhile jsWS)
     | _ => false)

/-- A late-registration line: digits, whitespace, level or levels (anchored). -/
def reLevels (s : Chars) : Bool :=
  let l := lowerChars s
  let ds := l.takeWhile (·.isDigit)
  let rest := l.dropWhile (·.isDigit)
  !ds.isEmpty &&
    (let r2 := rest.dropWhile jsWS
     r2 == "level".data || r2 == "levels".data)

/-- An event-number token: one to three digits with an optional flight
letter A-E (anchored, case-sensitive). -/
def reEvNum (s : Chars) : Bool :=
  let ds := s.takeWhile (·.isDigit)
  let rest := s.dropWhile (·.isDigit)
  decide (1 ≤ ds.length) && decide (ds.length ≤ 3) &&
    (rest == [] ||
      (rest.length == 1 && (let c := rest.headD ' '; decide ('A' ≤ c) && decide (c ≤ 'E'))))

/-- A MAIN EVENT continuation-day marker (anchored, case-insensitive). -/
def reMainEventCont (s : Chars) : Bool :=
  let l := lowerChars s
  if "main event".data.isPrefixOf l then
    match (l.drop 10).dropWhile jsWS with
    | '-' :: r2 =>
      let r3 := r2.dropWhile jsWS
      (if "day".data.isPrefixOf r3 then
        let r4 := r3.drop 3
        let r5 := r4.dropWhile jsWS
        decide (r5.length < r4.length) &&
          ((match r5 with
            | c :: _ => c.isDigit
            | [] => false) || "off".data.isPrefixOf r5)
       else false)
        || "plays".data.isPrefixOf r3 || "final".data.isPrefixOf r3
    | _ => false
  else false

/-- The buffer ends with an n-day event marker and optional trailing
whitespace (case-insensitive). -/
def reDayEventEnd (s : Chars) : Bool :=
  let l := (lowerChars s).reverse.dropWhile jsWS
  if ")tneve yad-".data.isPrefixOf l then
    match (l.drop 11).span (·.isDigit) with
    | (ds, '(' :: _) => !ds.isEmpty
    | _ => false
  else false

/-- A word, whitespace, opening parenthesis prefix (for Seven Card Stud,
Badugi and Razz starters). -/
def starterWsParen (w : Chars) (l : Chars) : Bool :=
  w.isPrefixOf l &&
    (let r := l.drop w.length
     let r2 := r.dropWhile jsWS
     decide (r2.length < r.length) && r2.headD ' ' == '(')

/-- A digits-then-Handed prefix. -/
def starterNumHanded (l : Chars) : Bool :=
  let ds := l.takeWhile (·.isDigit)
  let rest := l.dropWhile (·.isDigit)
  !ds.isEmpty && "-handed".data.isPrefixOf rest

/-- The ordered list of new-event starter prefixes (case-insensitive). -/
def starterTest (line : Chars) : Bool :=
  let l := lowerChars line
  "mystery".data.isPrefixOf l || "industry".data.isPrefixOf l ||
  starterNumHanded l || "omaha hi-lo".data.isPrefixOf l ||
  "pot-limit".data.isPrefixOf l ||
  starterWsParen "seven card stud".data l || "heads up".data.isPrefixOf l ||
  "dealers choice".data.isPrefixOf l || "no-limit".data.isPrefixOf l ||
  "colossus".data.isPrefixOf l || "shootout".data.isPrefixOf l ||
  "high roller".data.isPrefixOf l || starterWsParen "badugi".data l ||
  "big o".data.isPrefixOf l || mixedStart l ||
  "super turbo".data.isPrefixOf l || "freezeout".data.isPrefixOf l ||
  "monster".data.isPrefixOf l || "seniors".data.isPrefixOf l ||
  "millionaire".data.isPrefixOf l || "battle".data.isPrefixOf l ||
  "super seniors".data.isPrefixOf l || "tag team".data.isPrefixOf l ||
  "poker players".data.isPrefixOf l || "gladiators".data.isPrefixOf l ||
  "ladies".data.isPrefixOf l || "limit 2-7".data.isPrefixOf l ||
  "limit hold".data.isPrefixOf l || "mini".data.isPrefixOf l ||
  "pokernews".data.isPrefixOf l || "summer".data.isPrefixOf l ||
  "main event".data.isPrefixOf l || "ultra stack".data.isPrefixOf l ||
  "mid-stakes".data.isPrefixOf l || "lucky".data.isPrefixOf l ||
  "poker hall".data.isPrefixOf l || "t.o.r.s.e".data.isPrefixOf l ||
  "the closer".data.isPrefixOf l || "h.o.r.s.e".data.isPrefixOf l ||
  starterWsParen "razz".data l || "salute".data.isPrefixOf l ||
  "6-handed".data.isPrefixOf l || "8-handed".data.isPrefixOf l

/-- Does this line start a new event name, given the current buffer? -/
def isNewEventName (line : Chars) (buffer : List Chars) : Bool :=
  if buffer.isEmpty then true
  else
    let bufferText := joinSpace buffer
    if containsSub bufferText [';'] && !reDayEventEnd bufferText then false
    else starterTest line

end Wsop

namespace Wsop

/-- The active column of the section-tagging state machine. -/
inductive ColSection where
  | dates | days | times | buyins | chips | durations
  | reentries | lateRegs | eventNames | eventNumbers
  deriving DecidableEq, Repr

/-- Accumulated column streams plus the active section and name buffer. -/
structure SectState where
  dates : List Chars
  times : List Chars
  allBuyins : List (Option JsNum)
  chips : List (Option JsNum)
  durations : List Chars
  reentries : List Chars
  lateRegs : List Chars
  eventNames : List Chars
  eventNumbers : List Chars
  sect : Option ColSection
  buffer : List Chars
  deriving Repr

/-- Data collection for a line that triggered no section transition. -/
def dataCollect (st : SectState) (line : Chars) : SectState :=
  let st1 :=
    match st.sect with
    | some ColSection.dates =>
      if reDateLine line then { st with dates := st.dates ++ [line] } else st
    | some ColSection.days => st
    | some ColSection.times =>
      if reTimeLine line || line == "TBD".data then
        { st with times := st.times ++ [normTime line] }
      else st
    | some ColSection.buyins =>
      if line == "-".data then { st with allBuyins := st.allBuyins ++ [none] }
      else if line.headD ' ' == '$' then
        { st with allBuyins := st.allBuyins ++
            [match dollarCapture line with
             | some run => some (parseIntJS (run.filter (·.isDigit)))
             | none => none] }
      else st
    | some ColSection.chips =>
      if (!line.isEmpty && line.all (fun c => c.isDigit || c == ',')) || line == "-".data then
        { st with chips := st.chips ++
            [if line == "-".data then none
             else some (parseIntJS (line.filter (·.isDigit)))] }
      else st
    | some ColSection.durations =>
      if (!line.isEmpty && line.all (fun c => c.isDigit || jsWS c || c == '/'))
          || line == "-".data then
        { st with durations := st.durations ++
            [if line == "-".data then [] else line] }
      else st
    | some ColSection.reentries =>
      if isDigitRun line || reFlight line
          || containsSub (lowerChars line) "unlimited".data
          || containsSub (lowerChars line) "bust".data
          || line == "0".data then
        { st with reentries := st.reentries ++ [line] }
      else st
    | some ColSection.lateRegs =>
      if reLevels line || "first".data.isPrefixOf (lowerChars line) then
        { st with lateRegs := st.lateRegs ++ [line] }
      else { st with sect := some ColSection.eventNames }
    | _ => st
  match st1.sect with
  | some ColSection.eventNames =>
    if isNewEventName line st1.buffer then
      if !st1.buffer.isEmpty then
        { st1 with eventNames := st1.eventNames ++ [joinSpace st1.buffer],
                   buffer := [line] }
      else { st1 with buffer := [line] }
    else { st1 with buffer := st1.buffer ++ [line] }
  | some ColSection.eventNumbers =>
    if reEvNum line then { st1 with eventNumbers := st1.eventNumbers ++ [line] }
    else st1
  | _ => st1

/-- The action a line triggers in the section machine: a section
transition, a skip, the event-number header (with buffer flush), or
ordinary data collection. -/
inductive LineAction where
  | trans : ColSection → LineAction
  | skipLine : LineAction
  | evHash : LineAction
  | collect : LineAction
  deriving DecidableEq, Repr

/-- The transition table: which action a line triggers (checked in the
source's if-chain order). -/
def lineAction (line : Chars) : LineAction :=
  if containsSub line "EVENT NAME".data && containsSub line "DATE".data then
    LineAction.trans ColSection.dates
  else if line == "DAY".data then LineAction.trans ColSection.days
  else if line == "TIME".data then LineAction.trans ColSection.times
  else if line == "BUY-IN".data then LineAction.trans ColSection.buyins
  else if line == "STARTING".data then LineAction.trans ColSection.chips
  else if line == "CHIPS".data then LineAction.skipLine
  else if line == "LVL".data then LineAction.trans ColSection.durations
  else if line == "DURATION".data || line == "(MINUTES)".data then LineAction.skipLine
  else if line == "RE-ENTRY".data then LineAction.trans ColSection.reentries
  else if line == "LATE".data then LineAction.trans ColSection.lateRegs
  else if line == "REG.".data then LineAction.skipLine
  else if line == "EV#".data then LineAction.evHash
  else if reSlashPage line then LineAction.skipLine
  else if line == "WOHLD SERIES".data || line == "PDi<ER".data then LineAction.skipLine
  else LineAction.collect

/-- One step of the section-tagging state machine: transition checks and
skips first, then data collection. -/
def findSectionsStep (st : SectState) (line : Chars) : SectState :=
  match lineAction line with
  | LineAction.trans s => { st with sect := some s }
  | LineAction.skipLine => st
  | LineAction.evHash =>
    if !st.buffer.isEmpty then
      { st with eventNames := st.eventNames ++ [joinSpace st.buffer],
                buffer := [], sect := some ColSection.eventNumbers }
    else { st with sect := some ColSection.eventNumbers }
  | LineAction.collect => dataCollect st line

/-- The empty section state. -/
def initSectState : SectState := ⟨[], [], [], [], [], [], [], [], [], none, []⟩

/-- Scan all lines, flush the final name buffer, filter non-tournament
names (registration-opens and continuation-day rows). -/
def findSections (lines : List Chars) : SectState :=
  let st := lines.foldl findSectionsStep initSectState
  let st :=
    if !st.buffer.isEmpty then
      { st with eventNames := st.eventNames ++ [joinSpace st.buffer], buffer := [] }
    else st
  { st with eventNames := st.eventNames.filter (fun n =>
      !containsSub (lowerChars n) "registration opens".data && !reMainEventCont n) }

/-- A tournament record produced by the columnar WSOP pipeline. -/
structure ColTournament where
  eventNumber : Chars
  eventName : Chars
  date : Chars
  time : Chars
  buyin : ℕ
  prizePool : Option ℤ
  houseFee : Option ℤ
  optAddOn : Option ℤ
  rakePct : Option ℚ
  rakeDollars : Option ℤ
  startingChips : Option ℕ
  levelDuration : Chars
  reentry : Chars
  lateReg : Chars
  gameVariant : String
  venue : Chars
  deriving DecidableEq, Repr

/-- Parse one page of the columnar layout into tournament records. -/
def parsePage (pageText : Chars) (year : ℕ) : List ColTournament :=
  let lines := ((pageText.splitOn '\n').map jsTrim).filter (fun l => !l.isEmpty)
  let sections := findSections lines
  if sections.eventNumbers.isEmpty then []
  else
    let validBuyinIndices := (List.range sections.allBuyins.length).filter
      (fun idx => (sections.allBuyins.getD idx none).isSome)
    (List.range sections.eventNumbers.length).filterMap (fun i =>
      let eventNum := sections.eventNumbers.getD i []
      let eventName := sections.eventNames.getD i []
      if reMainEventCont eventName then none
      else
        match validBuyinIndices.get? i with
        | none => none
        | some rowIdx =>
          match sections.allBuyins.getD rowIdx none with
          | some (JsNum.num b) =>
            if b < 100 then none
            else
              let rake := getWSOPRake (b : ℤ) (String.mk eventNum)
              some
                { eventNumber := eventNum
                  eventName := eventName
                  date :=
                    match sections.dates.get? rowIdx with
                    | some d =>
                      if d.isEmpty then []
                      else d ++ (", ".data ++ (toString year).data)
                    | none => []
                  time :=
                    match sections.times.get? rowIdx with
                    | some t => if t.isEmpty then "TBD".data else t
                    | none => "TBD".data
                  buyin := b
                  prizePool := rake.prizePool
                  houseFee := rake.houseFee
                  optAddOn := rake.optAddOn
                  rakePct := rake.rakePct
                  rakeDollars := rake.rakeDollars
                  startingChips :=
                    match sections.chips.get? i with
                    | some (some (JsNum.num n)) => if n == 0 then none else some n
                    | _ => none
                  levelDuration := sections.durations.getD i []
                  reentry := sections.reentries.getD i []
                  lateReg := sections.lateRegs.getD i []
                  gameVariant := classifyChars eventName
                  venue := "WSOP Las Vegas".data }
          | some JsNum.nan => none
          | none => none)

/-- Match of the page-break marker at the head of the string; returns the
remainder after the marker. -/
def pageMarkAt (s : Chars) : Option Chars :=
  match s with
  | '-' :: '-' :: ' ' :: r =>
    match r.span (·.isDigit) with
    | (ds, ' ' :: 'o' :: 'f' :: ' ' :: r2) =>
      if ds.isEmpty then none
      else
        match r2.span (·.isDigit) with
        | (ds2, ' ' :: '-' :: '-' :: r3) => if ds2.isEmpty then none else some r3
        | _ => none
    | _ => none
  | _ => none

/-- Fuelled splitter on page-break markers (fuel bounds the scan length). -/
def splitPagesAux : ℕ → Chars → Chars → List Chars
  | 0, acc, rest => [acc.reverse ++ rest]
  | _ + 1, acc, [] => [acc.reverse]
  | fuel + 1, acc, c :: rest =>
    match pageMarkAt (c :: rest) with
    | some r3 => acc.reverse :: splitPagesAux fuel [] r3
    | none => splitPagesAux fuel (c :: acc) rest

/-- String.prototype.split on the page-break marker regex. -/
def splitPages (s : Chars) : List Chars := splitPagesAux s.length [] s

/-- Parse the full WSOP columnar schedule text: split into pages, skip
info pages, concatenate per-page results. -/
def parseWSOP2025Schedule (text : Chars) (year : ℕ) : List ColTournament :=
  let pages := (splitPages text).filter (fun p => !(jsTrim p).isEmpty)
  (pages.filter (fun page =>
    !(containsSub page "Consult structure sheets".data
      || containsSub page "Specialty Landmark".data
      || containsSub page "Take-Out Percentages".data))).flatMap
    (fun page => parsePage page year)

end Wsop

namespace Wsop

/-- An event-number token is never the empty string. -/
theorem reEvNum_ne_nil (x : Chars) (h : reEvNum x = true) : x ≠ [] := by
  intro hx
  subst hx
  simp [reEvNum] at h

/-- The first collection chain never touches the event-number stream. -/
theorem dataCollect_evnums (st : SectState) (line : Chars) :
    (dataCollect st line).eventNumbers = st.eventNumbers ∨
      (reEvNum line = true ∧
        (dataCollect st line).eventNumbers = st.eventNumbers ++ [line]) := by
  unfold dataCollect
  repeat' split
  all_goals try simp_all
  all_goals repeat' split
  all_goals try simp_all

/-- One machine step leaves the event-number stream unchanged or appends
one token matching the event-number pattern. -/
theorem findSectionsStep_evnums (st : SectState) (line : Chars) :
    (findSectionsStep st line).eventNumbers = st.eventNumbers ∨
      (reEvNum line = true ∧
        (findSectionsStep st line).eventNumbers = st.eventNumbers ++ [line]) := by
  unfold findSectionsStep
  split
  · left; rfl
  · left; rfl
  · split <;> (left; rfl)
  · exact dataCollect_evnums st line

/-- Fold invariant: every accumulated event number matches the pattern. -/
theorem foldl_evnums_pat (lines : List Chars) :
    ∀ st : SectState, (∀ x ∈ st.eventNumbers, reEvNum x = true) →
      ∀ x ∈ (lines.foldl findSectionsStep st).eventNumbers, reEvNum x = true := by
  induction lines with
  | nil => intro st h; exact h
  | cons l rest ih =>
    intro st h
    simp only [List.foldl_cons]
    apply ih
    rcases findSectionsStep_evnums st l with he | ⟨hp, he⟩
    · rw [he]; exact h
    · rw [he]
      intro x hx
      rcases List.mem_append.mp hx with hx | hx
      · exact h x hx
      · simp only [List.mem_singleton] at hx
        subst hx
        exact hp

/-- Every event number returned by findSections matches the pattern. -/
theorem findSections_evnums_pat (lines : List Chars) :
    ∀ x ∈ (findSections lines).eventNumbers, reEvNum x = true := by
  intro x hx
  have hbase : ∀ y ∈ initSectState.eventNumbers, reEvNum y = true := by
    intro y hy
    simp [initSectState] at hy
  apply foldl_evnums_pat lines initSectState hbase x
  simp only [findSections] at hx
  split at hx <;> simpa using hx

end Wsop

namespace Wsop

/-- The fallback tier key always resolves (the table is nonempty). -/
theorem fallbackTierKey_isSome (b : ℤ) : (fallbackTierKey b).isSome := by
  unfold fallbackTierKey
  cases h : bestTierLoop b none sortedTiers
  · rw [sortedTiers_eq]; rfl
  · rfl

/-- Every tier key has a tier record in the table. -/
theorem find_tier_of_mem (bt : ℤ) (h : bt ∈ sortedTiers) :
    ∃ t, (WSOP_RAKE_BY_BUYIN.find? (fun p => p.1 == bt)).map Prod.snd = some t := by
  rw [sortedTiers_eq] at h
  fin_cases h <;> exact ⟨_, rfl⟩

/-- getWSOPRake always resolves a tier: the all-null branch is unreachable. -/
theorem getWSOPRake_resolves (b : ℤ) (e : String) :
    ∃ t, getWSOPRake b e = tierFields t b := by
  unfold getWSOPRake
  split
  · exact ⟨_, rfl⟩
  · split
    · exact ⟨_, rfl⟩
    · split
      · rename_i bt hbt
        obtain ⟨t, ht⟩ := find_tier_of_mem bt (fallbackTierKey_spec b bt hbt).1
        split
        · exact ⟨_, rfl⟩
        · rename_i hnone
          rw [ht] at hnone
          cases hnone
      · rename_i hnone
        have hs := fallbackTierKey_isSome b
        rw [hnone] at hs
        cases hs

/-- Claim C7: for every columnar page input, the number of records returned
by parsePage never exceeds the number of event-number tokens detected by
findSections, and every returned record's eventNumber is a non-empty string. -/
theorem parsePage_count_bound (pageText : Chars) (year : ℕ) :
    (parsePage pageText year).length ≤
      (findSections (((pageText.splitOn '\n').map jsTrim).filter
        (fun l => !l.isEmpty))).eventNumbers.length ∧
    ∀ r ∈ parsePage pageText year, r.eventNumber ≠ [] := by
  constructor
  · unfold parsePage
    dsimp only
    split
    · simp
    · calc (List.filterMap _ (List.range _)).length
          ≤ (List.range ((findSections (((pageText.splitOn '\n').map jsTrim).filter
              (fun l => !l.isEmpty))).eventNumbers.length)).length :=
            List.length_filterMap_le _ _
        _ = _ := List.length_range _
  · intro r hr
    unfold parsePage at hr
    dsimp only at hr
    split at hr
    · simp at hr
    · rw [List.mem_filterMap] at hr
      obtain ⟨i, hi, hf⟩ := hr
      rw [List.mem_range] at hi
      split at hf
      · cases hf
      · split at hf
        · cases hf
        · split at hf
          · split at hf
            · cases hf
            · injection hf with hf
              subst hf
              apply reEvNum_ne_nil
              apply findSections_evnums_pat
              have hd := List.getD_eq_getElem
                (findSections (((pageText.splitOn '\n').map jsTrim).filter
                  (fun l => !l.isEmpty))).eventNumbers ([] : Chars) hi
              rw [hd]
              exact List.getElem_mem _
          · cases hf
          · cases hf

end Wsop

namespace Wsop

/-- A default record used only to state concrete witnesses. -/
def emptyColT : ColTournament :=
  ⟨[], [], [], [], 0, none, none, none, none, none, none, [], [], [], "", []⟩

/-- A concrete one-event columnar page. -/
def samplePageW : String :=
  "EVENT NAME DATE\nMay 28\nTIME\n10 AM\nBUY-IN\n$500\nSTARTING\nCHIPS\n25,000\nLVL\n40\nRE-ENTRY\n1\nLATE\n10 levels\nMystery Bounty\nEV#\n1"

/-- Witness for C7 at the concrete sample page. -/
theorem parsePage_count_bound_witness :
    ((parsePage samplePageW.data 2026).getD 0 emptyColT).eventNumber ≠ [] := by
  have hlen : 0 < (parsePage samplePageW.data 2026).length := by decide
  have hmem : (parsePage samplePageW.data 2026).getD 0 emptyColT
      ∈ parsePage samplePageW.data 2026 := by
    rw [List.getD_eq_getElem _ _ hlen]
    exact List.getElem_mem _
  exact (parsePage_count_bound samplePageW.data 2026).2 _ hmem

end Wsop

namespace Wsop

/-- Day-of-week tokens of the row-start pattern, in alternation order. -/
def dayToks : List Chars :=
  ["mon".data, "tues".data, "wed".data, "thurs".data, "fri".data, "sat".data, "sun".data]

/-- Month-abbreviation tokens, in alternation order. -/
def monToks : List Chars :=
  ["jan".data, "feb".data, "mar".data, "apr".data, "may".data, "jun".data,
   "jul".data, "aug".data, "sep".data, "oct".data, "nov".data, "dec".data]

/-- First alternation token that is a prefix; returns the token and the rest. -/
def matchAlt (toks : List Chars) (l : Chars) : Option (Chars × Chars) :=
  toks.findSome? (fun t => if t.isPrefixOf l then some (t, l.drop t.length) else none)

/-- A day number: one or two digits followed by a word boundary. -/
def dayNumB (r : Chars) : Bool :=
  let ds := r.takeWhile (·.isDigit)
  let rest := r.dropWhile (·.isDigit)
  decide (1 ≤ ds.length) && decide (ds.length ≤ 2) && bdryHead rest

/-- The day-of-week, month, day core of the row-start pattern. -/
def rowStartCore (r : Chars) : Bool :=
  match matchAlt dayToks r with
  | some (_, r1) =>
    let r2 := r1.dropWhile jsWS
    decide (r2.length < r1.length) &&
      (match matchAlt monToks r2 with
       | some (_, r3) =>
         let r4 := r3.dropWhile jsWS
         decide (r4.length < r3.length) && dayNumB r4
       | none => false)
  | none => false

/-- Consume an optional leading event number (digits and flight letter)
plus mandatory whitespace (the optional group of the row-start pattern). -/
def optEvGroup (l : Chars) : Option Chars :=
  let ds := l.takeWhile (·.isDigit)
  let rest := l.dropWhile (·.isDigit)
  if decide (1 ≤ ds.length) && decide (ds.length ≤ 3) then
    let rest2 : Chars :=
      match rest with
      | c :: r => if 'a' ≤ c && c ≤ 'g' then r else rest
      | [] => rest
    let r3 := rest2.dropWhile jsWS
    if decide (r3.length < rest2.length) then some r3 else none
  else none

/-- The anchored row-start test: day-of-week, month, day, with an optional
leading event number (case-insensitive). -/
def rowStart (line : Chars) : Bool :=
  let l := lowerChars line
  rowStartCore l ||
    (match optEvGroup l with
     | some r => rowStartCore r
     | none => false)

/-- Leading event-number capture of a row first line: digits, optional
flight letter, whitespace, day-of-week (case-insensitive; capture keeps
the original characters). -/
def evNumCapture (line : Chars) : Option Chars :=
  let ds := line.takeWhile (·.isDigit)
  let rest := line.dropWhile (·.isDigit)
  if decide (1 ≤ ds.length) && decide (ds.length ≤ 3) then
    let capRest : Chars × Chars :=
      match rest with
      | c :: r =>
        if ('A' ≤ c && c ≤ 'G') || ('a' ≤ c && c ≤ 'g') then (ds ++ [c], r)
        else (ds, rest)
      | [] => (ds, rest)
    let r3 := capRest.2.dropWhile jsWS
    if decide (r3.length < capRest.2.length) &&
        (matchAlt dayToks (lowerChars r3)).isSome then
      some capRest.1
    else none
  else none

/-- Date match at a position of the lowered row text: day-of-week,
whitespace, month token, whitespace, one or two day digits; returns the
month token and day digits. -/
def dateMatchAt (l : Chars) (i : ℕ) : Option (Chars × Chars) :=
  match matchAlt dayToks (l.drop i) with
  | some (_, r1) =>
    let r2 := r1.dropWhile jsWS
    if decide (r2.length < r1.length) then
      match matchAlt monToks r2 with
      | some (mt, r3) =>
        let r4 := r3.dropWhile jsWS
        if decide (r4.length < r3.length) then
          let ds := (r4.takeWhile (·.isDigit)).take 2
          if ds.isEmpty then none else some (mt, ds)
        else none
      | none => none
    else none
  | none => none

/-- Leftmost date match in the row text. -/
def dateMatch (l : Chars) : Option (Chars × Chars) :=
  (List.range (l.length + 1)).findSome? (dateMatchAt l)

/-- Full month name for a (lowered) month token. -/
def monthFull (m : Chars) : Chars :=
  if m == "jan".data then "January".data
  else if m == "feb".data then "February".data
  else if m == "mar".data then "March".data
  else if m == "apr".data then "April".data
  else if m == "may".data then "May".data
  else if m == "jun".data then "June".data
  else if m == "jul".data then "July".data
  else if m == "aug".data then "August".data
  else if m == "sep".data then "September".data
  else if m == "oct".data then "October".data
  else if m == "nov".data then "November".data
  else if m == "dec".data then "December".data
  else upperChars m

/-- Time match at a position of the lowered row text: boundary, one or two
digits, optional colon-minutes, optional whitespace, AM or PM, boundary;
returns the match length. -/
def timeMatchAt (l : Chars) (i : ℕ) : Option ℕ :=
  if bdryBefore l i then
    let r := l.drop i
    let ds := r.takeWhile (·.isDigit)
    if ds.length == 1 || ds.length == 2 then
      let rest := r.drop ds.length
      let withColon :=
        match rest with
        | ':' :: a :: b :: rr =>
          if a.isDigit && b.isDigit then some (ds.length + 3, rr) else none
        | _ => none
      let body :=
        match withColon with
        | some p => p
        | none => (ds.length, rest)
      let rest2 := body.2.dropWhile jsWS
      let wsn := body.2.length - rest2.length
      match rest2 with
      | a :: m :: rr =>
        if (a == 'a' || a == 'p') && m == 'm' && bdryHead rr then
          some (body.1 + wsn + 2)
        else none
      | _ => none
    else none
  else none

/-- Leftmost time match: returns the start index and length. -/
def timeMatch (l : Chars) : Option (ℕ × ℕ) :=
  (List.range (l.length + 1)).findSome? (fun i => (timeMatchAt l i).map (fun n => (i, n)))

/-- All global matches of a dollar amount (dollar sign then digits and
commas): start index and raw match length. -/
def dollarMatchesAux : ℕ → Chars → ℕ → List (ℕ × ℕ)
  | 0, _, _ => []
  | _ + 1, [], _ => []
  | fuel + 1, '$' :: rest, i =>
    let run := rest.takeWhile (fun c => c.isDigit || c == ',')
    if run.isEmpty then dollarMatchesAux fuel rest (i + 1)
    else (i, run.length + 1) :: dollarMatchesAux fuel (rest.drop run.length) (i + run.length + 1)
  | fuel + 1, _ :: rest, i => dollarMatchesAux fuel rest (i + 1)

/-- All dollar matches of the row text. -/
def dollarMatches (s : Chars) : List (ℕ × ℕ) := dollarMatchesAux s.length s 0

/-- A dollar token: parsed value, start index, raw length. -/
structure DollarTok where
  value : JsNum
  index : ℕ
  rawLen : ℕ
  deriving DecidableEq, Repr

/-- All dollar tokens of the row text with parsed values. -/
def allDollarsOf (joined : Chars) : List DollarTok :=
  (dollarMatches joined).map (fun p =>
    { value := parseIntJS (((joined.drop p.1).take p.2).filter (·.isDigit)),
      index := p.1, rawLen := p.2 })

end Wsop

namespace Wsop

/-- The 15-character window after a dollar token starts with optional
whitespace then GUARANTEED (case-insensitive). -/
def afterGuaranteed (joined : Chars) (d : DollarTok) : Bool :=
  let slice := ((lowerChars joined).drop (d.index + d.rawLen)).take 15
  "guaranteed".data.isPrefixOf (slice.dropWhile jsWS)

/-- The 5-character window before a dollar token ends with a comma plus
optional whitespace. -/
def beforeComma (joined : Chars) (d : DollarTok) : Bool :=
  let lo := d.index - min d.index 5
  let slice := ((joined.drop lo).take (d.index - lo))
  match slice.reverse.dropWhile jsWS with
  | ',' :: _ => true
  | _ => false

/-- The 20-character window after a dollar token starts with optional
whitespace then PER-space, REBUY or GUARANTEE (case-insensitive). -/
def afterPerRebuy (joined : Chars) (d : DollarTok) : Bool :=
  let slice := ((lowerChars joined).drop (d.index + d.rawLen)).take 20
  let t := slice.dropWhile jsWS
  "per ".data.isPrefixOf t || "rebuy".data.isPrefixOf t || "guarantee".data.isPrefixOf t

/-- End index of the time match (zero when there is no time). -/
def timeEndIdxOf (joined : Chars) : ℕ :=
  match timeMatch (lowerChars joined) with
  | some (i, n) => i + n
  | none => 0

/-- Column dollar values: not name-embedded (guarantee or comma-list), and
positioned strictly after the time token. -/
def columnDollarsOf (joined : Chars) : List DollarTok :=
  (allDollarsOf joined).filter (fun d =>
    !(afterGuaranteed joined d || beforeComma joined d) &&
      decide (timeEndIdxOf joined < d.index))

/-- Column dollars with PER/REBUY/GUARANTEE-qualified amounts removed. -/
def filteredColumnDollarsOf (joined : Chars) : List DollarTok :=
  (columnDollarsOf joined).filter (fun d => !afterPerRebuy joined d)

/-- Chips match at a position: boundary, digits, K, boundary; returns the
digits value. -/
def chipsAt (l : Chars) (i : ℕ) : Option ℕ :=
  if bdryBefore l i then
    let r := l.drop i
    let ds := r.takeWhile (·.isDigit)
    if ds.isEmpty then none
    else
      match r.drop ds.length with
      | 'k' :: rr => if bdryHead rr then some (digitsToNat ds) else none
      | _ => none
  else none

/-- Leftmost chips match of the row text (already lowered), times 1000. -/
def startingChipsOf (joined : Chars) : Option ℕ :=
  ((List.range ((lowerChars joined).length + 1)).findSome?
    (chipsAt (lowerChars joined))).map (· * 1000)

/-- Trailing levels match at a position: boundary, one or two digits,
optionally comma-joined with a second pair, then only whitespace to the
end; returns the whitespace-stripped capture. -/
def levelsAt (s : Chars) (i : ℕ) : Option Chars :=
  if bdryBefore s i then
    let r := s.drop i
    let ds1 := r.takeWhile (·.isDigit)
    if decide (1 ≤ ds1.length) && decide (ds1.length ≤ 2) then
      let rest := r.drop ds1.length
      let restc := rest.dropWhile jsWS
      let optA : Option Chars :=
        match restc with
        | ',' :: r2 =>
          let r3 := r2.dropWhile jsWS
          let ds2 := r3.takeWhile (·.isDigit)
          if decide (1 ≤ ds2.length) && decide (ds2.length ≤ 2) &&
              (r3.drop ds2.length).all jsWS then
            some (ds1 ++ [','] ++ ds2)
          else none
        | _ => none
      match optA with
      | some c => some c
      | none => if rest.all jsWS then some ds1 else none
    else none
  else none

/-- The level-duration field: leftmost trailing levels match, else empty. -/
def levelDurationOf (joined : Chars) : Chars :=
  match (List.range (joined.length + 1)).findSome? (levelsAt joined) with
  | some c => c
  | none => []

/-- Collapse tab runs to single spaces. -/
def tabRunsToSpaceAux : Chars → Bool → Chars
  | [], _ => []
  | c :: rest, prevTab =>
    if c == '\t' then
      if prevTab then tabRunsToSpaceAux rest true
      else ' ' :: tabRunsToSpaceAux rest true
    else c :: tabRunsToSpaceAux rest false

/-- Replace runs of tabs by single spaces. -/
def tabRunsToSpace (s : Chars) : Chars := tabRunsToSpaceAux s false

/-- Collapse whitespace runs to single spaces. -/
def collapseWSAux : Chars → Bool → Chars
  | [], _ => []
  | c :: rest, prevWS =>
    if jsWS c then
      if prevWS then collapseWSAux rest true
      else ' ' :: collapseWSAux rest true
    else c :: collapseWSAux rest false

/-- Replace runs of whitespace by single spaces. -/
def collapseWS (s : Chars) : Chars := collapseWSAux s false

/-- Replace every tab by a single space. -/
def tabsToSpace (s : Chars) : Chars := s.map (fun c => if c == '\t' then ' ' else c)

/-- The joined row text: lines joined with spaces, tab runs collapsed,
whitespace collapsed, trimmed. -/
def rowJoined (rowLines : List Chars) : Chars :=
  jsTrim (collapseWS (tabRunsToSpace (joinSpace rowLines)))

/-- Suffix test: whitespace, digits, K, whitespace, one or two digits with
an optional comma pair, trailing whitespace (the full remainder). -/
def sufChipsLevels (r : Chars) : Bool :=
  let a := r.dropWhile jsWS
  decide (a.length < r.length) &&
    (let ds := a.takeWhile (·.isDigit)
     !ds.isEmpty &&
       (match a.drop ds.length with
        | 'K' :: b =>
          let c := b.dropWhile jsWS
          decide (c.length < b.length) &&
            (let ds2 := c.takeWhile (·.isDigit)
             decide (1 ≤ ds2.length) && decide (ds2.length ≤ 2) &&
               (let d := c.drop ds2.length
                d.all jsWS ||
                  (match d with
                   | ',' :: e =>
                     let ds3 := e.takeWhile (·.isDigit)
                     decide (1 ≤ ds3.length) && decide (ds3.length ≤ 2) &&
                       (e.drop ds3.length).all jsWS
                   | _ => false)))
        | _ => false))

/-- Suffix test: whitespace, digits, K, trailing whitespace. -/
def sufChips (r : Chars) : Bool :=
  let a := r.dropWhile jsWS
  decide (a.length < r.length) &&
    (let ds := a.takeWhile (·.isDigit)
     !ds.isEmpty &&
       (match a.drop ds.length with
        | 'K' :: b => b.all jsWS
        | _ => false))

/-- Remove the leftmost end-anchored suffix matching the test. -/
def stripSuffix (p : Chars → Bool) (s : Chars) : Chars :=
  match (List.range (s.length + 1)).find? (fun i => p (s.drop i)) with
  | some i => s.take i
  | none => s

/-- The raw extracted event name of a row: between the time token and the
first column dollar; with no column dollars, everything after the time
with trailing chip/level tokens stripped; empty without a time. -/
def rawEventNameOf (joined : Chars) : Chars :=
  match timeMatch (lowerChars joined) with
  | some (i, n) =>
    match (filteredColumnDollarsOf joined).head? with
    | some d0 => jsTrim ((joined.drop (i + n)).take (d0.index - (i + n)))
    | none =>
      let raw := jsTrim (joined.drop (i + n))
      let raw := jsTrim (stripSuffix sufChipsLevels raw)
      jsTrim (stripSuffix sufChips raw)
  | none => []

/-- The total-entry amount: the first filtered column dollar, else zero. -/
def totalEntryOf (joined : Chars) : JsNum :=
  match (filteredColumnDollarsOf joined).head? with
  | some d => d.value
  | none => JsNum.num 0

/-- The cleaned-up (pre-display) event name used for flag detection. -/
def eventNameOf (joined : Chars) : Chars :=
  jsTrim (jsTrim (collapseWS (tabsToSpace (rawEventNameOf joined))))

/-- A whole-word occurrence (boundaries on both sides, case-insensitive). -/
def wordB (w : Chars) (s : Chars) : Bool :=
  let l := lowerChars s
  (List.range (l.length + 1)).any (fun i =>
    w.isPrefixOf (l.drop i) && bdryBefore l i && bdryHead ((l.drop i).drop w.length))

/-- An occurrence with a boundary before only (case-insensitive). -/
def wordBNoEnd (w : Chars) (s : Chars) : Bool :=
  let l := lowerChars s
  (List.range (l.length + 1)).any (fun i =>
    w.isPrefixOf (l.drop i) && bdryBefore l i)

/-- INVITE, optional whitespace, ONLY, with outer word boundaries. -/
def reInviteOnly (s : Chars) : Bool :=
  let l := lowerChars s
  (List.range (l.length + 1)).any (fun i =>
    bdryBefore l i && "invite".data.isPrefixOf (l.drop i) &&
      (let r := ((l.drop i).drop 6).dropWhile jsWS
       "only".data.isPrefixOf r && bdryHead (r.drop 4)))

/-- Restart flag: RESTART or FINAL TABLE as whole words in the name. -/
def isRestartOf (eventName : Chars) : Bool :=
  wordB "restart".data eventName || wordB "final table".data eventName

/-- Satellite flag: SATELLITE or SUPER SAT in the name. -/
def isSatelliteOf (eventName : Chars) : Bool :=
  wordB "satellite".data eventName || wordBNoEnd "super sat".data eventName

/-- Freeroll flag: FREEROLL in the name, or INVITE ONLY anywhere in the row. -/
def isFreerollOf (eventName joined : Chars) : Bool :=
  wordB "freeroll".data eventName || reInviteOnly joined

/-- Leftmost guarantee amount: dollar sign, digits and commas, optional
whitespace, GUARANTEED; returns the captured digits and commas. -/
def guarCaptureAt (l : Chars) (i : ℕ) : Option Chars :=
  match l.drop i with
  | '$' :: rest =>
    let run := rest.takeWhile (fun c => c.isDigit || c == ',')
    if run.isEmpty then none
    else if "guaranteed".data.isPrefixOf ((rest.drop run.length).dropWhile jsWS) then
      some run
    else none
  | _ => none

/-- Leftmost guarantee capture in the row text. -/
def guarCapture (joined : Chars) : Option Chars :=
  let l := lowerChars joined
  (List.range (l.length + 1)).findSome? (guarCaptureAt l)

/-- Multi-day marker: open parenthesis, one digit, -DAY EVENT and a close
parenthesis (case-insensitive); returns the digit. -/
def multiDayCapture (eventName : Chars) : Option Chars :=
  let l := lowerChars eventName
  (List.range (l.length + 1)).findSome? (fun i =>
    match l.drop i with
    | '(' :: d :: rest =>
      if d.isDigit && "-day event)".data.isPrefixOf rest then some [d] else none
    | _ => none)

/-- EVENT, whitespace, digits: the captured digits of the leftmost match. -/
def eventNumRefCapture (s : Chars) : Option Chars :=
  let l := lowerChars s
  (List.range (l.length + 1)).findSome? (fun i =>
    if "event".data.isPrefixOf (l.drop i) then
      let r := (l.drop i).drop 5
      let r2 := r.dropWhile jsWS
      if decide (r2.length < r.length) then
        let ds := r2.takeWhile (·.isDigit)
        if ds.isEmpty then none else some ds
      else none
    else none)

/-- EVENT, whitespace, digits, whitespace, anything, SATELLITE: the
captured digits of the leftmost match. -/
def satTargetCapture (s : Chars) : Option Chars :=
  let l := lowerChars s
  (List.range (l.length + 1)).findSome? (fun i =>
    if "event".data.isPrefixOf (l.drop i) then
      let r := (l.drop i).drop 5
      let r2 := r.dropWhile jsWS
      if decide (r2.length < r.length) then
        let ds := r2.takeWhile (·.isDigit)
        if ds.isEmpty then none
        else
          let r3 := r2.drop ds.length
          let r4 := r3.dropWhile jsWS
          if decide (r4.length < r3.length) && containsSub r4 "satellite".data then
            some ds
          else none
      else none
    else none)

end Wsop

namespace Wsop

/-- Remove every leftmost non-overlapping match (fuel bounds the scan). -/
def removeAllMatchesAux (matchLen : Chars → Option ℕ) : ℕ → Chars → Chars
  | 0, s => s
  | _ + 1, [] => []
  | fuel + 1, c :: rest =>
    match matchLen (c :: rest) with
    | some n =>
      if n == 0 then c :: removeAllMatchesAux matchLen fuel rest
      else removeAllMatchesAux matchLen fuel ((c :: rest).drop n)
    | none => c :: removeAllMatchesAux matchLen fuel rest

/-- Remove every leftmost non-overlapping match of the pattern. -/
def removeAllMatches (matchLen : Chars → Option ℕ) (s : Chars) : Chars :=
  removeAllMatchesAux matchLen s.length s

/-- Head match of dollar-guarantee text: dollar sign, digits and commas,
whitespace, GUARANTEED, trailing whitespace; returns the match length. -/
def guarRemoveLen (s : Chars) : Option ℕ :=
  match s with
  | '$' :: rest =>
    let run := rest.takeWhile (fun c => c.isDigit || c == ',')
    if run.isEmpty then none
    else
      let r2 := rest.drop run.length
      let ws1 := r2.takeWhile jsWS
      if "guaranteed".data.isPrefixOf (lowerChars (r2.drop ws1.length)) then
        let r3 := (r2.drop ws1.length).drop 10
        some (1 + run.length + ws1.length + 10 + (r3.takeWhile jsWS).length)
      else none
  | _ => none

/-- Head match of stray INVITE ONLY text with surrounding whitespace;
returns the match length. -/
def inviteRemoveLen (s : Chars) : Option ℕ :=
  let ws0 := s.takeWhile jsWS
  let r := s.drop ws0.length
  if "invite".data.isPrefixOf (lowerChars r) then
    let r2 := r.drop 6
    let ws1 := r2.takeWhile jsWS
    let r3 := r2.drop ws1.length
    if "only".data.isPrefixOf (lowerChars r3) then
      let r4 := r3.drop 4
      some (ws0.length + 6 + ws1.length + 4 + (r4.takeWhile jsWS).length)
    else none
  else none

/-- Remove one trailing curly quote. -/
def stripTrailingCurly (s : Chars) : Chars :=
  match s.reverse with
  | c :: restRev => if c == '“' || c == '”' then restRev.reverse else s
  | [] => s

/-- Clean an event name for display: drop guarantee text, a trailing curly
quote and stray INVITE ONLY, then collapse whitespace and trim. -/
def cleanEventName (name : Chars) : Chars :=
  jsTrim (collapseWS (removeAllMatches inviteRemoveLen
    (stripTrailingCurly (removeAllMatches guarRemoveLen name))))

/-- Notes: guarantee, bounty, freezeout, turbo, multi-day and single
re-entry annotations, comma-joined; none when empty. -/
def notesOf (eventName joined : Chars) : Option Chars :=
  let items : List Chars :=
    (match guarCapture joined with
     | some c => [('$' :: c) ++ " Guaranteed".data]
     | none => []) ++
    (if wordB "bounty".data eventName then ["Bounty".data] else []) ++
    (if wordB "freezeout".data eventName then ["Freezeout".data] else []) ++
    (if wordB "turbo".data eventName then ["Turbo".data] else []) ++
    (match multiDayCapture eventName with
     | some d => [d ++ "-Day Event".data]
     | none => []) ++
    (if wordB "single re-entry".data eventName then ["Single Re-Entry".data] else [])
  if items.isEmpty then none else some (List.intercalate ", ".data items)

/-- A tournament record produced by the generic row pipeline. -/
structure RowTournament where
  eventNumber : Chars
  eventName : Chars
  date : Chars
  time : Chars
  buyin : JsNum
  prizePool : Option JsNum
  houseFee : Option JsNum
  optAddOn : Option JsNum
  rakePct : Option ℚ
  rakeDollars : Option ℤ
  startingChips : Option ℕ
  levelDuration : Chars
  reentry : Option Chars
  lateReg : Option Chars
  gameVariant : String
  venue : Chars
  notes : Option Chars
  isSatellite : Bool
  isRestart : Bool
  targetEvent : Option Chars
  parentEvent : Option Chars
  deriving DecidableEq, Repr

/-- Parse one grouped row into a tournament record; none when the row has
no date match. -/
def parseRow (rowLines : List Chars) (year : ℕ) (venue : Chars) :
    Option RowTournament :=
  let joined := rowJoined rowLines
  let firstLine := tabRunsToSpace (rowLines.headD [])
  let eventNumber : Chars :=
    match evNumCapture firstLine with
    | some c => c
    | none => []
  match dateMatch (lowerChars joined) with
  | none => none
  | some (mt, ds) =>
    let dateStr :=
      monthFull mt ++ [' '] ++ (toString (digitsToNat ds)).data ++
        ", ".data ++ (toString year).data
    let time : Chars :=
      match timeMatch (lowerChars joined) with
      | some (i, n) => upperChars (((joined.drop i).take n).filter (fun c => !jsWS c))
      | none => "TBD".data
    let fcd := filteredColumnDollarsOf joined
    let totalEntry : JsNum := totalEntryOf joined
    let prizePool : Option JsNum := (fcd.get? 1).map DollarTok.value
    let houseFee : Option JsNum := (fcd.get? 2).map DollarTok.value
    let optAddOn : Option JsNum := (fcd.get? 3).map DollarTok.value
    let eventName := eventNameOf joined
    let isRestart := isRestartOf eventName
    let isSatellite := isSatelliteOf eventName
    let isFreeroll := isFreerollOf eventName joined
    let targetEvent : Option Chars :=
      if isSatellite then
        match satTargetCapture eventName with
        | some t => some t
        | none =>
          if containsSub (lowerChars eventName) "main event".data then
            some "MAIN EVENT".data
          else none
      else none
    let parentEvent : Option Chars :=
      if isRestart then
        match eventNumRefCapture eventName with
        | some p => some p
        | none =>
          if containsSub (lowerChars eventName) "main event".data then
            some "MAIN EVENT".data
          else none
      else none
    let buyinAfterRestart : JsNum := if isRestart then JsNum.num 0 else totalEntry
    let buyin : JsNum := if isFreeroll then JsNum.num 0 else buyinAfterRestart
    let rakeInfo : Option ℤ × Option ℚ :=
      match totalEntry, prizePool with
      | JsNum.num te, some (JsNum.num pp2) =>
        if 0 < te ∧ 0 < pp2 then
          let rd : ℤ := (te : ℤ) - (pp2 : ℤ)
          (some rd, some (jsRound ((rd : ℚ) / (te : ℚ) * 1000) / 10))
        else (none, none)
      | _, _ => (none, none)
    some
      { eventNumber := eventNumber
        eventName := cleanEventName eventName
        date := dateStr
        time := time
        buyin := buyin
        prizePool := prizePool
        houseFee := houseFee
        optAddOn := optAddOn
        rakePct := rakeInfo.2
        rakeDollars := rakeInfo.1
        startingChips := startingChipsOf joined
        levelDuration := levelDurationOf joined
        reentry := none
        lateReg := none
        gameVariant := classifyChars eventName
        venue := venue
        notes := notesOf eventName joined
        isSatellite := isSatellite
        isRestart := isRestart
        targetEvent := targetEvent
        parentEvent := parentEvent }

end Wsop

namespace Wsop

/-- Known venue tokens, in search order. -/
def KNOWN_VENUES : List Chars :=
  ["MGM NATIONAL HARBOR".data, "MGM GRAND".data, "WYNN".data, "ENCORE".data,
   "VENETIAN".data, "ARIA".data, "BELLAGIO".data, "RESORTS WORLD".data,
   "GOLDEN NUGGET".data, "SOUTH POINT".data, "ORLEANS".data, "HORSESHOE".data,
   "PARIS LAS VEGAS".data, "SEMINOLE HARD ROCK".data, "BORGATA".data,
   "FOXWOODS".data, "MOHEGAN SUN".data, "THUNDER VALLEY".data, "CHOCTAW".data,
   "BIKE".data, "COMMERCE".data, "HARD ROCK HOLLYWOOD".data]

/-- Display names for known venues. -/
def VENUE_DISPLAY : List (Chars × Chars) :=
  [("MGM NATIONAL HARBOR".data, "MGM National Harbor".data),
   ("MGM GRAND".data, "MGM Grand".data),
   ("WYNN".data, "Wynn Las Vegas".data),
   ("ENCORE".data, "Wynn Las Vegas".data),
   ("VENETIAN".data, "Venetian".data),
   ("ARIA".data, "Aria".data),
   ("BELLAGIO".data, "Bellagio".data),
   ("RESORTS WORLD".data, "Resorts World".data),
   ("GOLDEN NUGGET".data, "Golden Nugget".data),
   ("SOUTH POINT".data, "South Point".data),
   ("ORLEANS".data, "Orleans".data),
   ("HORSESHOE".data, "Horseshoe / Paris Las Vegas".data),
   ("PARIS LAS VEGAS".data, "Horseshoe / Paris Las Vegas".data),
   ("SEMINOLE HARD ROCK".data, "Seminole Hard Rock".data),
   ("BORGATA".data, "Borgata".data),
   ("FOXWOODS".data, "Foxwoods".data),
   ("MOHEGAN SUN".data, "Mohegan Sun".data),
   ("THUNDER VALLEY".data, "Thunder Valley".data),
   ("CHOCTAW".data, "Choctaw".data),
   ("BIKE".data, "The Bicycle Casino".data),
   ("COMMERCE".data, "Commerce Casino".data),
   ("HARD ROCK HOLLYWOOD".data, "Hard Rock Hollywood".data)]

/-- First known venue contained in the upper-cased text, as display name. -/
def detectVenue (text : Chars) : Chars :=
  let upper := upperChars text
  match KNOWN_VENUES.find? (fun v => containsSub upper v) with
  | some v =>
    match (VENUE_DISPLAY.find? (fun p => p.1 == v)).map Prod.snd with
    | some d => d
    | none => v
  | none => "Unknown Venue".data

/-- Leftmost year token 202x or 203x with word boundaries. -/
def findYearTok (l : Chars) : Option ℕ :=
  (List.range (l.length + 1)).findSome? (fun i =>
    if bdryBefore l i then
      match l.drop i with
      | '2' :: '0' :: x :: d :: rest =>
        if (x == '2' || x == '3') && d.isDigit && bdryHead rest then
          some (digitsToNat ['2', '0', x, d])
        else none
      | _ => none
    else none)

/-- Detected document year: a year token in the first 500 characters, or
the current year (passed in explicitly as the ambient clock value). -/
def detectYear (now : ℕ) (text : Chars) : ℕ :=
  match findYearTok (text.take 500) with
  | some y => y
  | none => now

/-- Footer and disclaimer line test. -/
def reFooter (s : Chars) : Bool :=
  let l := lowerChars s
  containsSub l "must be 21+".data || containsSub l "please play responsibly".data ||
  containsSub l "gambler".data || containsSub l "gambling help".data ||
  containsSub l "gamblinghelp".data || containsSub l "no longer withholds".data ||
  containsSub l "auto-gratuity".data || containsSub l "optional add-on".data ||
  containsSub l "structure sheets for a complete".data

/-- Hash, whitespace, DAY, word boundary (anchored, on lowered text). -/
def hashDayPrefix (l : Chars) : Bool :=
  match l with
  | '#' :: r =>
    let r2 := r.dropWhile jsWS
    "day".data.isPrefixOf r2 && bdryHead (r2.drop 3)
  | _ => false

/-- Hash, whitespace, DAY, one whitespace (anchored, on lowered text). -/
def hashDayWs (l : Chars) : Bool :=
  match l with
  | '#' :: r =>
    let r2 := r.dropWhile jsWS
    "day".data.isPrefixOf r2 &&
      (match r2.drop 3 with
       | c :: _ => jsWS c
       | [] => false)
  | _ => false

/-- Column-header line test: header fragments or a multi-word header, but
never an actual data row. -/
def isColumnHeaderLine (line : Chars) : Bool :=
  let lower := jsTrim (lowerChars line)
  if rowStart line then false
  else if lower == "event".data || hashDayPrefix lower || lower == "entry".data
      || lower == "prize".data || lower == "pool".data || lower == "house".data
      || lower == "fee".data || lower == "opt".data
      || ("add-on".data.isPrefixOf lower && bdryHead (lower.drop 6))
      || lower == "chips".data || lower == "levels".data
      || lower == "buy-in".data || lower == "total".data then true
  else if hashDayWs (lowerChars line) && containsSub (lowerChars line) "date".data
      && containsSub (lowerChars line) "time".data then true
  else false

/-- Four digits, whitespace, POTOMAC (anchored, on lowered text). -/
def startPotomac (l : Chars) : Bool :=
  (l.take 4).length == 4 && (l.take 4).all (·.isDigit) &&
    (let r := l.drop 4
     let r2 := r.dropWhile jsWS
     decide (r2.length < r.length) && "potomac".data.isPrefixOf r2)

/-- Full month names, in alternation order. -/
def monthFullToks : List Chars :=
  ["january".data, "february".data, "march".data, "april".data, "may".data,
   "june".data, "july".data, "august".data, "september".data, "october".data,
   "november".data, "december".data]

/-- Full month name, whitespace, digit (anchored, on lowered text). -/
def monthStartDigit (l : Chars) : Bool :=
  match matchAlt monthFullToks l with
  | some (_, r) =>
    let r2 := r.dropWhile jsWS
    decide (r2.length < r.length) &&
      (match r2 with
       | c :: _ => c.isDigit
       | [] => false)
  | none => false

/-- Metadata line test: series or season words, month headers, the detected
year, a known venue, or a presented-by line (data rows excepted). -/
def isMetadataLine (line : Chars) (year : ℕ) : Bool :=
  let l := lowerChars line
  if startPotomac l || containsSub l "poker open".data || containsSub l "winter".data
      || containsSub l "summer".data || containsSub l "spring".data
      || containsSub l "classic".data || containsSub l "championship".data then true
  else if monthStartDigit l then true
  else if wordB (toString year).data line && !rowStart line then true
  else if KNOWN_VENUES.any (fun v => containsSub (upperChars line) v)
      && !rowStart line then true
  else if "presented by".data.isPrefixOf l then true
  else false

/-- Collect the data lines of one page, skipping footers, headers and
pre-header metadata; a row-start line forces the header-done state. -/
def collectPageLines (year : ℕ) (page : Chars) : List Chars :=
  ((page.splitOn '\n').foldl (fun (st : Bool × List Chars) rawLine =>
    let line := jsTrim rawLine
    if line.isEmpty then st
    else if reFooter line then st
    else if isColumnHeaderLine line then (true, st.2)
    else if !st.1 then
      if isMetadataLine line year then st
      else if rowStart line then (true, st.2 ++ [line])
      else st
    else (st.1, st.2 ++ [line])) (false, [])).2

/-- Group data lines into rows at row-start boundaries; lines before the
first boundary are dropped. -/
def groupIntoRows (lines : List Chars) : List (List Chars) :=
  let fin := lines.foldl (fun (st : Option (List Chars) × List (List Chars)) line =>
    if rowStart line then
      match st.1 with
      | some cur => (some [line], st.2 ++ [cur])
      | none => (some [line], st.2)
    else
      match st.1 with
      | some cur => (some (cur ++ [line]), st.2)
      | none => st) (none, [])
  match fin.1 with
  | some cur => fin.2 ++ [cur]
  | none => fin.2

/-- Strip a trailing flight letter from an event number. -/
def baseEvNum (e : Chars) : Chars :=
  match e.reverse with
  | c :: restRev =>
    if ('A' ≤ c && c ≤ 'G') || ('a' ≤ c && c ≤ 'g') then restRev.reverse else e
  | [] => e

/-- Base event numbers of primary (non-restart) records, first occurrence
wins, in insertion order. -/
def buildEventMapKeys (ts : List RowTournament) : List Chars :=
  ts.foldl (fun acc t =>
    if !t.eventNumber.isEmpty && !t.isRestart then
      let base := baseEvNum t.eventNumber
      if acc.contains base then acc else acc ++ [base]
    else acc) []

/-- A canonical integer key (no leading zero except the string 0 itself). -/
def isCanonicalInt (s : Chars) : Bool :=
  isDigitRun s && (s == ['0'] || s.headD '0' != '0')

/-- JavaScript object entry order: canonical integer keys ascending, then
the remaining keys in insertion order. -/
def entriesOrder (keys : List Chars) : List Chars :=
  (keys.filter isCanonicalInt).insertionSort
    (fun a b => digitsToNat a ≤ digitsToNat b) ++
    keys.filter (fun k => !isCanonicalInt k)

/-- Link each restart lacking a parent to the first mapped event whose
textual reference appears in the restart's name. -/
def linkRestartsToParents (ts : List RowTournament) : List RowTournament :=
  let keys := entriesOrder (buildEventMapKeys ts)
  ts.map (fun t =>
    if t.isRestart && t.parentEvent.isNone then
      match keys.find? (fun num =>
        containsSub t.eventName ("EVENT ".data ++ num ++ [' ']) ||
          containsSub t.eventName ("EVENT ".data ++ num ++ ['\t'])) with
      | some num => { t with parentEvent := some num }
      | none => t
    else t)

/-- Parse a generic schedule text: detect year and venue, collect data
lines, group rows, parse each row, then link restarts to parents.  The
ambient clock (current year) is passed explicitly as now. -/
def parseGenericSchedule (now : ℕ) (text : Chars) (optVenue : Option Chars) :
    List RowTournament :=
  let pages := (splitPages text).filter (fun p => !(jsTrim p).isEmpty)
  let allText := List.intercalate ['\n'] pages
  let year := detectYear now allText
  let venue : Chars :=
    match optVenue with
    | some v => if v.isEmpty then detectVenue allText else v
    | none => detectVenue allText
  let dataLines := pages.flatMap (collectPageLines year)
  let rows := groupIntoRows dataLines
  linkRestartsToParents (rows.filterMap (fun row => parseRow row year venue))

/-- Format auto-detection: the columnar WSOP layout when its section
tokens are present, otherwise the generic row layout. -/
def detectFormat (pdfText : Chars) : String :=
  if containsSub pdfText "EV#".data && containsSub pdfText "LVL".data &&
      (containsSub pdfText "RE-ENTRY".data || containsSub pdfText "LATE".data) then
    "wsop"
  else if rowStart pdfText then "generic"
  else "generic"

end Wsop

namespace Wsop

/-- Claim C10: malformed input degrades by omission, never by error: a
columnar page whose section scan finds no event numbers contributes zero
records, and a row with no date match is discarded (parseRow returns
none); both pipelines are total functions returning lists. -/
theorem parse_degrades_by_omission :
    (∀ (pageText : Chars) (year : ℕ),
      (findSections (((pageText.splitOn '\n').map jsTrim).filter
        (fun l => !l.isEmpty))).eventNumbers.isEmpty = true →
      parsePage pageText year = []) ∧
    (∀ (rowLines : List Chars) (year : ℕ) (venue : Chars),
      dateMatch (lowerChars (rowJoined rowLines)) = none →
      parseRow rowLines year venue = none) := by
  constructor
  · intro pageText year h
    unfold parsePage
    dsimp only
    split
    · rfl
    · rename_i hne
      exact absurd h hne
  · intro rowLines year venue h
    unfold parseRow
    dsimp only
    split
    · rfl
    · rename_i mt ds heq
      rw [h] at heq
      cases heq

/-- Witness for C10: a page and a row with no recognizable structure. -/
theorem parse_degrades_by_omission_witness :
    parsePage "hello".data 2026 = [] ∧
      parseRow ["hello".data] 2026 "V".data = none :=
  ⟨parse_degrades_by_omission.1 "hello".data 2026 (by decide),
   parse_degrades_by_omission.2 ["hello".data] 2026 "V".data (by decide)⟩

end Wsop

namespace Wsop

/-- The combined text of all nonempty pages (header area for detection). -/
def allTextOf (text : Chars) : Chars :=
  List.intercalate ['\n'] ((splitPages text).filter (fun p => !(jsTrim p).isEmpty))

/-- Claim C2 (amended): whenever the combined page text carries a year
token in its first 500 characters, parseGenericSchedule is independent of
the ambient clock (the now argument), hence deterministic; without such a
token the detected year falls back to the current year. -/
theorem parseGeneric_deterministic (now now2 : ℕ) (text : Chars)
    (optVenue : Option Chars)
    (h : (findYearTok ((allTextOf text).take 500)).isSome) :
    parseGenericSchedule now text optVenue = parseGenericSchedule now2 text optVenue := by
  obtain ⟨y, hy⟩ := Option.isSome_iff_exists.mp h
  have hdet : ∀ n : ℕ, detectYear n (List.intercalate ['\n']
      ((splitPages text).filter (fun p => !(jsTrim p).isEmpty))) = y := by
    intro n
    unfold detectYear
    have hy2 : findYearTok ((List.intercalate ['\n']
        ((splitPages text).filter (fun p => !(jsTrim p).isEmpty))).take 500) = some y := hy
    rw [hy2]
  unfold parseGenericSchedule
  dsimp only
  rw [hdet now, hdet now2]

/-- A row text with no year token anywhere. -/
def sampleNoYearText : String := "MON JAN 5 10AM NLH OPENER $300 $250 10K 20"

/-- A schedule text with a year token in the header area. -/
def sampleYearText : String :=
  "2026 CLASSIC\nMON JAN 5 10AM NLH OPENER $300 $250 10K 20"

/-- Witness for C2 at a concrete text with a header year, under two
different clock values. -/
theorem parseGeneric_deterministic_witness :
    parseGenericSchedule 5 sampleYearText.data none =
      parseGenericSchedule 2031 sampleYearText.data none :=
  parseGeneric_deterministic 5 2031 sampleYearText.data none (by decide)

/-- Counterexample to C2 as stated: with no year token in the input, two
runs under different current years give different outputs (the dates
carry the clock year). -/
theorem parseGeneric_clock_cex :
    findYearTok ((allTextOf sampleNoYearText.data).take 500) = none ∧
      (parseGenericSchedule 2026 sampleNoYearText.data none).map RowTournament.date ≠
        (parseGenericSchedule 2027 sampleNoYearText.data none).map RowTournament.date := by
  decide

end Wsop

namespace Wsop

/-- Claim C5 (amended): in the columnar pipeline all five rake fields are
always present (the engine always resolves a tier); in the row pipeline
only rakePct and rakeDollars are coupled (both present or both absent),
while prizePool, houseFee and optAddOn follow the number of column dollar
amounts and can be present or absent independently of the pair. -/
theorem rake_fields_presence :
    (∀ (pageText : Chars) (year : ℕ) (r : ColTournament), r ∈ parsePage pageText year →
      r.prizePool.isSome ∧ r.houseFee.isSome ∧ r.optAddOn.isSome ∧
        r.rakePct.isSome ∧ r.rakeDollars.isSome) ∧
    (∀ (rowLines : List Chars) (year : ℕ) (venue : Chars) (r : RowTournament),
      parseRow rowLines year venue = some r →
      (r.rakePct.isSome ↔ r.rakeDollars.isSome)) := by
  constructor
  · intro pageText year r hr
    unfold parsePage at hr
    dsimp only at hr
    split at hr
    · simp at hr
    · rw [List.mem_filterMap] at hr
      obtain ⟨i, _, hf⟩ := hr
      split at hf
      · cases hf
      · split at hf
        · cases hf
        · split at hf
          · split at hf
            · cases hf
            · injection hf with hf
              subst hf
              obtain ⟨t, ht⟩ := getWSOPRake_resolves _ _
              dsimp only
              rw [ht]
              simp [tierFields]
          · cases hf
          · cases hf
  · intro rowLines year venue r h
    unfold parseRow at h
    dsimp only at h
    split at h
    · cases h
    · injection h with h
      subst h
      dsimp only
      split
      · split
        · simp
        · simp
      · simp

/-- Witness for C5 at the concrete columnar sample page. -/
theorem rake_fields_presence_witness :
    ((parsePage samplePageW.data 2026).getD 0 emptyColT).prizePool.isSome ∧
      ((parsePage samplePageW.data 2026).getD 0 emptyColT).houseFee.isSome ∧
      ((parsePage samplePageW.data 2026).getD 0 emptyColT).optAddOn.isSome ∧
      ((parsePage samplePageW.data 2026).getD 0 emptyColT).rakePct.isSome ∧
      ((parsePage samplePageW.data 2026).getD 0 emptyColT).rakeDollars.isSome := by
  have hlen : 0 < (parsePage samplePageW.data 2026).length := by decide
  have hmem : (parsePage samplePageW.data 2026).getD 0 emptyColT
      ∈ parsePage samplePageW.data 2026 := by
    rw [List.getD_eq_getElem _ _ hlen]
    exact List.getElem_mem _
  exact rake_fields_presence.1 samplePageW.data 2026 _ hmem

/-- Counterexample to C5 as stated: a row with exactly two column dollar
amounts yields prizePool, rakePct and rakeDollars present but houseFee
and optAddOn null — a partially computed subset. -/
theorem rake_fields_partial_cex :
    (parseRow ["MON JAN 5 10AM NLH OPENER $300 $250 10K 20".data] 2026 "V".data).map
      (fun r => (r.prizePool.isSome, r.houseFee.isSome, r.optAddOn.isSome,
        r.rakePct.isSome, r.rakeDollars.isSome)) =
      some (true, false, false, true, true) := by
  decide

end Wsop

namespace Wsop

/-- Claim C6 (amended): in the row pipeline, a record with buyin 0 is a
restart, or carries the explicit freeroll flag (FREEROLL in the name or
INVITE ONLY in the row), or the row simply had no positive total-entry
column dollar amount (the unflagged fallthrough the original claim
misses). -/
theorem buyin_zero_cases (rowLines : List Chars) (year : ℕ) (venue : Chars)
    (r : RowTournament) (h : parseRow rowLines year venue = some r)
    (hb : r.buyin = JsNum.num 0) :
    r.isRestart = true ∨
      isFreerollOf (eventNameOf (rowJoined rowLines)) (rowJoined rowLines) = true ∨
      totalEntryOf (rowJoined rowLines) = JsNum.num 0 := by
  unfold parseRow at h
  dsimp only at h
  split at h
  · cases h
  · injection h with h
    subst h
    dsimp only at hb ⊢
    by_cases hR : isRestartOf (eventNameOf (rowJoined rowLines)) = true
    · left
      simp [hR]
    · by_cases hF : isFreerollOf (eventNameOf (rowJoined rowLines)) (rowJoined rowLines) = true
      · exact Or.inr (Or.inl hF)
      · right; right
        rw [Bool.not_eq_true] at hR hF
        simp only [hR, hF, Bool.false_eq_true, if_false] at hb
        exact hb

/-- A concrete restart row carrying a column dollar amount. -/
def sampleRestartRow : List Chars :=
  ["MON JAN 5 10AM NLH MAIN EVENT DAY 2 RESTART $300 10K 20".data]

/-- A default row record used only to state concrete witnesses. -/
def emptyRowT : RowTournament :=
  ⟨[], [], [], [], JsNum.num 0, none, none, none, none, none, none, [],
   none, none, "", [], none, false, false, none, none⟩

/-- Witness for C6 at the concrete restart row. -/
theorem buyin_zero_cases_witness :
    ((parseRow sampleRestartRow 2026 "V".data).getD emptyRowT).isRestart = true ∨
      isFreerollOf (eventNameOf (rowJoined sampleRestartRow))
        (rowJoined sampleRestartRow) = true ∨
      totalEntryOf (rowJoined sampleRestartRow) = JsNum.num 0 :=
  buyin_zero_cases sampleRestartRow 2026 "V".data _ (by decide) (by decide)

/-- Counterexample to C6 as stated: a row with no dollar amounts at all
gets buyin 0 while being neither a restart nor flagged as freeroll. -/
theorem buyin_zero_cex :
    (parseRow ["MON JAN 5 10AM NLH FREEBIE".data] 2026 "V".data).map
      (fun r => (r.buyin, r.isRestart)) = some (JsNum.num 0, false) ∧
      isFreerollOf (eventNameOf (rowJoined ["MON JAN 5 10AM NLH FREEBIE".data]))
        (rowJoined ["MON JAN 5 10AM NLH FREEBIE".data]) = false := by
  decide

/-- Claim C9: for any row whose extracted event name is exactly
NLH MAIN EVENT DAY 2 RESTART and which carries a column dollar amount,
the record is a restart, its buyin is forced to 0 despite the present
amount, and its parent event is MAIN EVENT. -/
theorem restart_row_fields (rowLines : List Chars) (year : ℕ) (venue : Chars)
    (r : RowTournament) (h : parseRow rowLines year venue = some r)
    (hname : eventNameOf (rowJoined rowLines) = "NLH MAIN EVENT DAY 2 RESTART".data)
    (hdollar : filteredColumnDollarsOf (rowJoined rowLines) ≠ []) :
    r.isRestart = true ∧ r.buyin = JsNum.num 0 ∧
      r.parentEvent = some "MAIN EVENT".data := by
  unfold parseRow at h
  dsimp only at h
  split at h
  · cases h
  · injection h with h
    subst h
    dsimp only
    rw [hname]
    refine ⟨by decide, ?_, by decide⟩
    by_cases hF : isFreerollOf "NLH MAIN EVENT DAY 2 RESTART".data (rowJoined rowLines) = true
    · simp [hF]
    · rw [Bool.not_eq_true] at hF
      have hR : isRestartOf "NLH MAIN EVENT DAY 2 RESTART".data = true := by decide
      simp only [hF, hR, Bool.false_eq_true, if_false, if_true]

/-- Witness for C9 at the concrete restart row. -/
theorem restart_row_fields_witness :
    ((parseRow sampleRestartRow 2026 "V".data).getD emptyRowT).isRestart = true ∧
      ((parseRow sampleRestartRow 2026 "V".data).getD emptyRowT).buyin = JsNum.num 0 ∧
      ((parseRow sampleRestartRow 2026 "V".data).getD emptyRowT).parentEvent =
        some "MAIN EVENT".data :=
  restart_row_fields sampleRestartRow 2026 "V".data _ (by decide) (by decide) (by decide)

end Wsop
